import Mathlib

/-!
Verification of the tactical-trainer core ("The Conn").  The repository ships
only browser-level verification scripts; the core itself (WorldState,
SensorModel, ContactTracker, TMASolver, AIController, WeaponControlSystem,
MissionStateMachine) is specified in spec.md and is modelled here, faithfully
to the spec's words, as an executable shallow embedding.  Numeric details the
spec leaves open (trigonometry, noise laws, grid resolution) are modelled by
deterministic integer approximations; every claim settled below depends only
on the structure the spec fixes, never on those numeric choices.
-/

namespace TheConn

/-- Modelled from the spec: tracker classification (§3 Tracker). -/
inductive Classification
  | UNKNOWN
  | MERCHANT
  | SUB
deriving DecidableEq

/-- Modelled from the spec: a bearing observation {timestamp, bearing, source
entity id}, immutable once recorded (§3 BearingObservation). -/
structure BearingObservation where
  timestamp : Nat
  bearing : Int
  sourceId : Nat
deriving DecidableEq

/-- Modelled from the spec: a maintained-course/speed segment of ownship's own
track, delimited by course or speed changes (§3 OwnshipLeg).  A leg is
identified by the time it starts; it lasts until the next leg starts. -/
structure OwnshipLeg where
  startTime : Nat
  course : Int
  speed : Int
deriving DecidableEq

/-- The leg active at time `t`: the last leg of the (chronological) list whose
start time is at most `t`. -/
def legAt (legs : List OwnshipLeg) (t : Nat) : Option OwnshipLeg :=
  legs.foldl (fun acc l => if l.startTime ≤ t then some l else acc) none

/-- Number of distinct ownship legs represented in a bearing history
(§4.3 step 1-2): observations are partitioned by the leg active at their
timestamp and the distinct legs are counted by their start time. -/
def distinctLegCount (legs : List OwnshipLeg) (hist : List BearingObservation) : Nat :=
  (((hist.filterMap (fun o => legAt legs o.timestamp)).map OwnshipLeg.startTime).dedup).length

/-- Modelled from the spec: a TMA solution {range, course, speed, ambiguity
pair, spread} (§3 TMASolution).  `range = none` when range is unresolved; the
ambiguity list holds the candidate (direction, range) pairs. -/
structure TMASolution where
  range : Option Nat
  course : Int
  speed : Int
  ambiguity : List (Int × Nat)
  spread : Nat
deriving DecidableEq

/-- Modelled from the spec: the solver either reports `InsufficientData`
(a no-solution state, not an exception) or produces a solution (§4.3, §7). -/
inductive SolverOutput
  | insufficientData
  | solution (s : TMASolution)
deriving DecidableEq

/-- Modelled from the spec: the velocity-triage residual score of one candidate
(course, speed) pair against the observed history (§4.3 step 4): sum of squared
bearing residuals against a bearing-rate prediction anchored at the first
observation.  The exact geometric prediction function is not recoverable from
available material; it is modelled as a linear bearing-rate law that still
depends on the candidate course and speed. -/
def triageScore (hist : List BearingObservation) (course speed : Int) : Nat :=
  match hist with
  | [] => 0
  | o0 :: _ =>
    (hist.map (fun o =>
      ((o.bearing - (o0.bearing + (course - o0.bearing) * speed *
        ((o.timestamp : Int) - (o0.timestamp : Int)) / 100)) ^ 2).toNat)).sum

/-- The candidate (course, speed) grid swept by velocity triage (§4.3 step 4):
a bounded grid, coarse for responsiveness. -/
def triageGrid : List (Int × Int) :=
  ([0, 45, 90, 135, 180, 225, 270, 315] : List Int).flatMap
    (fun c => ([0, 5, 10, 15] : List Int).map (fun s => (c, s)))

/-- Best-scoring grid cell for the history (§4.3 step 4). -/
def bestFit (hist : List BearingObservation) : Int × Int :=
  triageGrid.foldl
    (fun best cand =>
      if triageScore hist cand.1 cand.2 < triageScore hist best.1 best.2 then cand else best)
    (0, 0)

/-- Modelled from the spec: the error/spread metric derived from the residual
around the best fit (§4.3 step 5) - a flatter minimum yields a larger spread. -/
def spreadOf (hist : List BearingObservation) (fit : Int × Int) : Nat :=
  triageScore hist fit.1 fit.2 + hist.length

/-- Modelled from the spec: near-range candidate of the ambiguity pair
(§4.3 step 3).  The exact triangulation arithmetic is not recoverable; the
candidate is a deterministic function of the bearing spread of the history. -/
def nearRange (hist : List BearingObservation) : Nat :=
  1000 + 100 * ((hist.map (fun o => o.bearing)).foldl (fun a b => max a b) 0
    - (hist.map (fun o => o.bearing)).foldl (fun a b => min a b) 0).toNat

/-- Far-range candidate of the ambiguity pair (§4.3 step 3). -/
def farRange (hist : List BearingObservation) : Nat :=
  4 * nearRange hist

/-- The mirrored candidate direction of the ambiguity pair for a
range-unresolved (single-leg) solution (§4.3 step 2). -/
def mirrorCourse (hist : List BearingObservation) (course : Int) : Int :=
  match hist with
  | [] => (course + 180) % 360
  | o0 :: _ => (2 * o0.bearing - course + 360) % 360

/-- Modelled from the spec: the TMA solver (§4.3).  A pure function of the
ownship leg history and the bearing history.  With zero or one observations it
reports `InsufficientData`; with fewer than two distinct legs represented it
returns a partial solution with `range = none` and both directions of the
ambiguity pair; with two or more legs it returns a ranged solution publishing
the near/far pair `R1`/`R2`. -/
def tmaSolve (legs : List OwnshipLeg) (hist : List BearingObservation) : SolverOutput :=
  if hist.length ≤ 1 then .insufficientData
  else
    let fit := bestFit hist
    if distinctLegCount legs hist < 2 then
      .solution
        { range := none
          course := fit.1
          speed := fit.2
          ambiguity := [(fit.1, nearRange hist), (mirrorCourse hist fit.1, farRange hist)]
          spread := spreadOf hist fit }
    else
      .solution
        { range := some (nearRange hist)
          course := fit.1
          speed := fit.2
          ambiguity := [(fit.1, nearRange hist), (fit.1, farRange hist)]
          spread := spreadOf hist fit }

/-- Modelled from the spec: what a caller may display - `InsufficientData` is
surfaced as a "no solution" state (§7), so no solution is shown. -/
def displayedSolution : SolverOutput → Option TMASolution
  | .insufficientData => none
  | .solution s => some s

/-- Modelled from the spec: the two-state AI-control flag of a contact
(§4.4), default `ACTIVE`. -/
inductive AIFlag
  | ACTIVE
  | OVERRIDDEN
deriving DecidableEq

/-- Modelled from the spec: a contact entity - a kinematic actor with
position, course, speed, depth (§3 Entity) - together with its scenario side
(hostile or not), liveness, and AI-control flag. -/
structure Contact where
  id : Nat
  x : Int
  y : Int
  course : Int
  speed : Int
  depth : Int
  hostile : Bool
  alive : Bool
  aiFlag : AIFlag
deriving DecidableEq

/-- Modelled from the spec: the ownship entity (§3 Entity). -/
structure Ownship where
  x : Int
  y : Int
  course : Int
  speed : Int
  depth : Int
deriving DecidableEq

/-- Modelled from the spec: a tracker - the player-visible estimate of a
contact: unique id, designation time, classification, ordered bearing history,
current TMA solution (§3 Tracker).  The ground-truth linkage is NOT stored
here; it lives in the separate side table of the core state (§9). -/
structure Tracker where
  id : Nat
  sourceId : Nat
  designatedAt : Nat
  classification : Classification
  history : List BearingObservation
  solution : SolverOutput
deriving DecidableEq

/-- Modelled from the spec: engagement phase of the weapon sequence (§4.5). -/
inductive EngPhase
  | IDLE
  | DETECTING
  | LOCKED
  | FIRED
deriving DecidableEq

/-- Modelled from the spec: per-tracker weapon sequence state {phase,
lock-timer remaining, assigned tube} (§3 EngagementState). -/
structure EngagementState where
  trackerId : Nat
  phase : EngPhase
  lockTimer : Nat
  tube : Option Nat
deriving DecidableEq

/-- Modelled from the spec: state of one torpedo tube (§4.5). -/
inductive TubeState
  | EMPTY
  | LOADING
  | LOADED
deriving DecidableEq

/-- Modelled from the spec: mission outcome (§4.6). -/
inductive Outcome
  | IN_PROGRESS
  | VICTORY
  | DEFEAT
deriving DecidableEq

/-- Modelled from the spec: derived alert level (§4.6). -/
inductive AlertLevel
  | NORMAL
  | ALERT
  | ENGAGED
deriving DecidableEq

/-- Modelled from the spec: scenario-tunable configuration (search ceiling,
lock duration, baffle arc, detection range, classification threshold) - the
spec treats these as configuration inputs, not hardcoded constants (§9). -/
structure CoreConfig where
  searchCeiling : Int
  lockDuration : Nat
  baffleHalfWidth : Int
  detectRange : Int
  classifyThreshold : Nat
deriving DecidableEq

/-- Modelled from the spec: the core session state owned by the tick driver
(§5): world state (ownship + contacts), ownship leg history, the live tracker
set, the monotone tracker id counter, engagement states, the tube bank, the
tracker-to-entity ground-truth side table (consulted only by
scoring/classification, never the solver, §9), mission outcome and the
scenario-defined loss flag. -/
structure CoreState where
  time : Nat
  ownship : Ownship
  ownshipLegs : List OwnshipLeg
  contacts : List Contact
  trackers : List Tracker
  nextTrackerId : Nat
  engagements : List EngagementState
  tubes : List TubeState
  groundTruth : List (Nat × Nat)
  outcome : Outcome
  ownshipDestroyed : Bool
  config : CoreConfig
deriving DecidableEq

/-- Modelled from the spec: error taxonomy (§7). -/
inductive CmdError
  | AlreadyDesignated
  | NotFound
  | InvalidState
  | TubeBusy
deriving DecidableEq

def findTracker (st : CoreState) (tid : Nat) : Option Tracker :=
  st.trackers.find? (fun t => t.id == tid)

def contactOf (st : CoreState) (cid : Nat) : Option Contact :=
  st.contacts.find? (fun c => c.id == cid)

def engagementOf (st : CoreState) (tid : Nat) : Option EngagementState :=
  st.engagements.find? (fun e => e.trackerId == tid)

/-- Modelled from the spec: `designate(observationSourceId) -> TrackerId`
(§4.2): creates a new tracker bound to a source entity, fails with
`AlreadyDesignated` if a live tracker already targets that source.  The new
tracker takes the next id from the monotone counter (a dropped id is never
reused) and its ground-truth linkage is recorded in the side table. -/
def designate (st : CoreState) (src : Nat) : CoreState × Except CmdError Nat :=
  if st.trackers.any (fun t => t.sourceId == src) then
    (st, .error .AlreadyDesignated)
  else
    ({ st with
        trackers := st.trackers ++
          [{ id := st.nextTrackerId, sourceId := src, designatedAt := st.time,
             classification := .UNKNOWN, history := [], solution := .insufficientData }]
        nextTrackerId := st.nextTrackerId + 1
        groundTruth := st.groundTruth ++ [(st.nextTrackerId, src)] },
     .ok st.nextTrackerId)

/-- Modelled from the spec: `drop(trackerId)` (§4.2): destroys the tracker and
any dependent engagement state; idempotent. -/
def dropTracker (st : CoreState) (tid : Nat) : CoreState :=
  { st with
      trackers := st.trackers.filter (fun t => t.id != tid)
      engagements := st.engagements.filter (fun e => e.trackerId != tid) }

/-- Modelled from the spec: `recordObservation(trackerId, BearingObservation)`
(§4.2): appends to history; fails silently (observation dropped, state
unchanged) if the tracker does not exist. -/
def recordObservation (st : CoreState) (tid : Nat) (obs : BearingObservation) : CoreState :=
  { st with
      trackers := st.trackers.map (fun t =>
        if t.id == tid then { t with history := t.history ++ [obs] } else t) }

/-- Modelled from the spec: a manual kinematic update payload
(course or speed or depth), §6 `recordManualUpdate`. -/
structure KinematicUpdate where
  course : Option Int
  speed : Option Int
  depth : Option Int
deriving DecidableEq

def applyKinematics (c : Contact) (u : KinematicUpdate) : Contact :=
  { c with
      course := u.course.getD c.course
      speed := u.speed.getD c.speed
      depth := u.depth.getD c.depth }

/-- Modelled from the spec: a manual kinematic update against a contact flips
the AI flag to `OVERRIDDEN` atomically with applying the update (§4.4). -/
def manualUpdate (st : CoreState) (cid : Nat) (u : KinematicUpdate) : CoreState :=
  { st with
      contacts := st.contacts.map (fun c =>
        if c.id == cid then { applyKinematics c u with aiFlag := .OVERRIDDEN } else c) }

/-- Modelled from the spec: `resume()` flips `OVERRIDDEN -> ACTIVE` (§4.4). -/
def resumeAI (st : CoreState) (cid : Nat) : CoreState :=
  { st with
      contacts := st.contacts.map (fun c =>
        if c.id == cid then { c with aiFlag := .ACTIVE } else c) }

/-- Modelled from the spec: a helm command changes ownship course/speed and
closes the current ownship leg, starting a new one (§3 OwnshipLeg). -/
def helmOrder (st : CoreState) (course speed : Int) : CoreState :=
  { st with
      ownship := { st.ownship with course := course, speed := speed }
      ownshipLegs := st.ownshipLegs ++ [{ startTime := st.time, course := course, speed := speed }] }

/-- The target entity a tracker's engagement geometry is checked against
(via the tracker's bound source entity). -/
def targetOf (st : CoreState) (tid : Nat) : Option Contact :=
  (findTracker st tid).bind (fun tr => contactOf st tr.sourceId)

/-- Modelled from the spec: a target above the configured search ceiling
(shallower than the ceiling depth) is never lockable (§4.5, glossary). -/
def aboveCeiling (c : Contact) (cfg : CoreConfig) : Bool :=
  decide (c.depth < cfg.searchCeiling)

/-- Modelled from the spec: `startLock` (§4.5): `IDLE -> DETECTING` starting
the countdown; fails with `InvalidState` when the target is above the search
ceiling or the engagement is already past `IDLE`; `NotFound` when the tracker
or its target no longer exists. -/
def startLock (st : CoreState) (tid : Nat) : CoreState × Except CmdError Unit :=
  match targetOf st tid with
  | none => (st, .error .NotFound)
  | some tgt =>
    if aboveCeiling tgt st.config then (st, .error .InvalidState)
    else
      match engagementOf st tid with
      | some e =>
        if e.phase = .IDLE then
          ({ st with engagements := st.engagements.map (fun e2 =>
              if e2.trackerId == tid then
                { e2 with phase := .DETECTING, lockTimer := st.config.lockDuration }
              else e2) }, .ok ())
        else (st, .error .InvalidState)
      | none =>
        ({ st with engagements := st.engagements ++
            [{ trackerId := tid, phase := .DETECTING,
               lockTimer := st.config.lockDuration, tube := none }] }, .ok ())

/-- Modelled from the spec: `abortLock` destroys the engagement (abort
transitions to idle, §3/§4.5); `NotFound` when none exists. -/
def abortLock (st : CoreState) (tid : Nat) : CoreState × Except CmdError Unit :=
  match engagementOf st tid with
  | none => (st, .error .NotFound)
  | some _ =>
    ({ st with engagements := st.engagements.filter (fun e => e.trackerId != tid) }, .ok ())

/-- Modelled from the spec: `load(tubeIndex)` fails with `TubeBusy` if the
tube is not `EMPTY` (§4.5). -/
def loadTube (st : CoreState) (idx : Nat) : CoreState × Except CmdError Unit :=
  match st.tubes.get? idx with
  | none => (st, .error .NotFound)
  | some .EMPTY => ({ st with tubes := st.tubes.set idx .LOADING }, .ok ())
  | some _ => (st, .error .TubeBusy)

def firstLoaded (tubes : List TubeState) : Option Nat :=
  (List.range tubes.length).find? (fun i => tubes.get? i == some .LOADED)

/-- Modelled from the spec: `fire` (§4.5): `LOCKED -> FIRED`, consuming a
`LOADED` tube; `InvalidState` otherwise. -/
def fireTracker (st : CoreState) (tid : Nat) : CoreState × Except CmdError Unit :=
  match engagementOf st tid with
  | none => (st, .error .NotFound)
  | some e =>
    if e.phase = .LOCKED then
      match firstLoaded st.tubes with
      | some i =>
        ({ st with
            engagements := st.engagements.map (fun e2 =>
              if e2.trackerId == tid then { e2 with phase := .FIRED, tube := some i } else e2)
            tubes := st.tubes.set i .EMPTY }, .ok ())
      | none => (st, .error .InvalidState)
    else (st, .error .InvalidState)

/-- Modelled from the spec: the player commands accepted by the core (§6). -/
inductive Cmd
  | designateCmd (src : Nat)
  | dropCmd (tid : Nat)
  | recordObsCmd (tid : Nat) (obs : BearingObservation)
  | manualUpdateCmd (cid : Nat) (u : KinematicUpdate)
  | resumeAICmd (cid : Nat)
  | helmCmd (course speed : Int)
  | lockStartCmd (tid : Nat)
  | lockAbortCmd (tid : Nat)
  | tubeLoadCmd (idx : Nat)
  | fireCmd (tid : Nat)
deriving DecidableEq

/-- Modelled from the spec: the tick driver applies a command, discarding any
error - nothing in the core is fatal; all failures degrade to a well-defined
state (§7). -/
def applyCmd (st : CoreState) : Cmd → CoreState
  | .designateCmd src => (designate st src).1
  | .dropCmd tid => dropTracker st tid
  | .recordObsCmd tid obs => recordObservation st tid obs
  | .manualUpdateCmd cid u => manualUpdate st cid u
  | .resumeAICmd cid => resumeAI st cid
  | .helmCmd course speed => helmOrder st course speed
  | .lockStartCmd tid => (startLock st tid).1
  | .lockAbortCmd tid => (abortLock st tid).1
  | .tubeLoadCmd idx => (loadTube st idx).1
  | .fireCmd tid => (fireTracker st tid).1

/-- Integer octant ("diamond") approximation of 90*(sin c, cos c), used in
place of floating-point trigonometry, which is not shallowly embeddable. -/
def diamondDir (course : Int) : Int × Int :=
  let c := (course % 360 + 360) % 360
  if c ≤ 90 then (c, 90 - c)
  else if c ≤ 180 then (180 - c, 90 - c)
  else if c ≤ 270 then (180 - c, c - 270)
  else (c - 360, c - 270)

/-- Integer diamond approximation of atan2 mapped to a 0-360 bearing
(0 = north, measured clockwise). -/
def approxBearing (dx dy : Int) : Int :=
  let s : Int := (dx.natAbs : Int) + (dy.natAbs : Int)
  if s = 0 then 0
  else if 0 ≤ dy then (90 * dx / s + 360) % 360
  else (180 - 90 * dx / s) % 360

def moveContact (dt : Nat) (c : Contact) : Contact :=
  if c.alive then
    { c with
        x := c.x + c.speed * dt * (diamondDir c.course).1 / 90
        y := c.y + c.speed * dt * (diamondDir c.course).2 / 90 }
  else c

def moveOwnship (dt : Nat) (o : Ownship) : Ownship :=
  { o with
      x := o.x + o.speed * dt * (diamondDir o.course).1 / 90
      y := o.y + o.speed * dt * (diamondDir o.course).2 / 90 }

/-- Modelled from the spec: the clock advances WorldState by dt (§2): all live
entities move along their current course/speed. -/
def advanceWorld (st : CoreState) (dt : Nat) : CoreState :=
  { st with
      time := st.time + dt
      ownship := moveOwnship dt st.ownship
      contacts := st.contacts.map (moveContact dt) }

def bearingTo (o : Ownship) (c : Contact) : Int :=
  approxBearing (c.x - o.x) (c.y - o.y)

/-- Modelled from the spec: the baffle arc - a fixed angular sector astern of
ownship where detection is impossible, a hard exclusion (§4.1). -/
def inBaffle (o : Ownship) (brg : Int) (cfg : CoreConfig) : Bool :=
  let rel := ((brg - o.course) % 360 + 360) % 360
  decide (180 - cfg.baffleHalfWidth ≤ rel) && decide (rel ≤ 180 + cfg.baffleHalfWidth)

def rangeSq (o : Ownship) (c : Contact) : Int :=
  (c.x - o.x) ^ 2 + (c.y - o.y) ^ 2

/-- Modelled from the spec: detectability (§4.1).  The range-dependent fade is
modelled as a hard range threshold (the exact probability law is not
recoverable); the baffle exclusion is hard as specified. -/
def detectable (st : CoreState) (c : Contact) : Bool :=
  c.alive && !inBaffle st.ownship (bearingTo st.ownship c) st.config
    && decide (rangeSq st.ownship c ≤ st.config.detectRange ^ 2)

/-- Modelled from the spec: `classify` (§4.2) - classification becomes
available only after the accumulation threshold since designation is met;
before that the tracker keeps reporting its previous value (initially
`UNKNOWN`).  Grading consults the ground-truth side table (§9): a tracker
linked to a live hostile entity classifies `SUB`, otherwise `MERCHANT`. -/
def classifyStep (st : CoreState) (t : Tracker) : Classification :=
  if t.designatedAt + st.config.classifyThreshold ≤ st.time then
    match (st.groundTruth.lookup t.id).bind (fun eid => contactOf st eid) with
    | some c => if c.hostile && c.alive then .SUB else .MERCHANT
    | none => t.classification
  else t.classification

/-- Modelled from the spec: the per-tick sensor/tracker stage (§2): the sensor
samples a noisy bearing for each tracker's source entity (if detectable) and
the observation is appended to that tracker's history; classification is
refreshed.  `noise` is the tick driver's reproducible RNG stream (§4.1). -/
def observeTracker (st : CoreState) (noise : Nat → Int) (t : Tracker) : Tracker :=
  match contactOf st t.sourceId with
  | some c =>
    if detectable st c then
      { t with
          classification := classifyStep st t
          history := t.history ++
            [{ timestamp := st.time
               bearing := (bearingTo st.ownship c + noise (st.time + t.id) % 3 + 360) % 360
               sourceId := t.sourceId }] }
    else { t with classification := classifyStep st t }
  | none => { t with classification := classifyStep st t }

def observeAll (st : CoreState) (noise : Nat → Int) : CoreState :=
  { st with trackers := st.trackers.map (observeTracker st noise) }

/-- Modelled from the spec: the solver recomputes solutions for all trackers -
always a full recompute from stored history, a pure function of the tracker's
bearing history and ownship leg history (§3 TMASolution, §4.3). -/
def solveTracker (st : CoreState) (t : Tracker) : Tracker :=
  { t with solution := tmaSolve st.ownshipLegs t.history }

def solveAll (st : CoreState) : CoreState :=
  { st with trackers := st.trackers.map (solveTracker st) }

/-- Modelled from the spec: autonomous steering per behavior profile (§4.4);
profile details are scenario data, modelled as a steady patrol turn. -/
def aiAdvance (c : Contact) : Contact :=
  { c with course := (c.course + 3) % 360 }

/-- Modelled from the spec: one AI arbitration step for one contact: steer it
only while its flag is `ACTIVE` (§4.4). -/
def aiStep (c : Contact) : Contact :=
  match c.aiFlag with
  | .ACTIVE => aiAdvance c
  | .OVERRIDDEN => c

/-- Modelled from the spec: AIController advances course/speed of each
`ACTIVE` contact; an `OVERRIDDEN` contact is left untouched (§4.4). -/
def aiMotion (st : CoreState) : CoreState :=
  { st with contacts := st.contacts.map aiStep }

/-- Modelled from the spec: one countdown step of an engagement (§4.5):
`DETECTING` counts down to `LOCKED` while geometry stays valid, and collapses
to `IDLE` when geometry is invalidated mid-countdown (target lost or above the
search ceiling); other phases are stable under the timer. -/
def engStep (st : CoreState) (e : EngagementState) : EngagementState :=
  match e.phase with
  | .DETECTING =>
    match targetOf st e.trackerId with
    | some tgt =>
      if aboveCeiling tgt st.config then { e with phase := .IDLE, lockTimer := 0 }
      else if e.lockTimer ≤ 1 then { e with phase := .LOCKED, lockTimer := 0 }
      else { e with lockTimer := e.lockTimer - 1 }
    | none => { e with phase := .IDLE, lockTimer := 0 }
  | _ => e

def tubeStep : TubeState → TubeState
  | .LOADING => .LOADED
  | t => t

/-- Modelled from the spec: the WeaponControlSystem stage of a tick (§2):
advance every in-progress lock sequence and finish tube loading. -/
def wcsTick (st : CoreState) : CoreState :=
  { st with
      engagements := st.engagements.map (engStep st)
      tubes := st.tubes.map tubeStep }

def hostileAlive (st : CoreState) : Bool :=
  st.contacts.any (fun c => c.hostile && c.alive)

def trackerHostile (t : Tracker) : Bool :=
  t.classification == .SUB

def engagementHot (e : EngagementState) : Bool :=
  e.phase == .LOCKED || e.phase == .FIRED

/-- Modelled from the spec: the derived alert level (§4.6): `NORMAL` with no
hostile tracker, `ALERT` when a hostile tracker exists but no engagement is
`LOCKED`/`FIRED`, `ENGAGED` otherwise. -/
def alertLevel (st : CoreState) : AlertLevel :=
  if st.trackers.any trackerHostile then
    if st.engagements.any engagementHot then .ENGAGED else .ALERT
  else .NORMAL

/-- Modelled from the spec: the mission state machine evaluation (§4.6):
`VICTORY` when no hostile entity is alive and the alert level is `NORMAL`;
`DEFEAT` on the scenario-defined loss condition; both terminal - once
terminal the machine ignores further WorldState changes. -/
def missionTick (st : CoreState) : CoreState :=
  match st.outcome with
  | .VICTORY => st
  | .DEFEAT => st
  | .IN_PROGRESS =>
    if !hostileAlive st && alertLevel st == .NORMAL then { st with outcome := .VICTORY }
    else if st.ownshipDestroyed then { st with outcome := .DEFEAT }
    else st

/-- One stage of the per-tick pipeline, or one queued command (§2, §5). -/
inductive Step
  | command (c : Cmd)
  | advance (dt : Nat)
  | observeStage (noise : Nat → Int)
  | solveStage
  | aiStage
  | wcsStage
  | missionStage

def applyStep (st : CoreState) : Step → CoreState
  | .command c => applyCmd st c
  | .advance dt => advanceWorld st dt
  | .observeStage noise => observeAll st noise
  | .solveStage => solveAll st
  | .aiStage => aiMotion st
  | .wcsStage => wcsTick st
  | .missionStage => missionTick st

def runSteps (st : CoreState) (steps : List Step) : CoreState :=
  steps.foldl applyStep st

/-- Modelled from the spec: one simulation tick (§2, §5): queued commands are
applied first, in arrival order, at the tick boundary; then the clock advances
the world, the sensor/tracker stage records observations, the solver
recomputes, the AI steers non-overridden contacts, the weapon system advances,
and the mission machine evaluates. -/
def tick (st : CoreState) (q : List Cmd) (dt : Nat) (noise : Nat → Int) : CoreState :=
  runSteps st (q.map Step.command ++
    [.advance dt, .observeStage noise, .solveStage, .aiStage, .wcsStage, .missionStage])

/-- Modelled from the spec: the original scenario snapshot supplied by the
external scenario loader (§6). -/
structure ScenarioSnapshot where
  ownship : Ownship
  contacts : List Contact
  tubes : List TubeState
  config : CoreConfig
deriving DecidableEq

/-- Modelled from the spec: session initialization from a scenario snapshot
(§4.6): all components re-initialize; no trackers, no engagements, outcome
`IN_PROGRESS`, a single initial ownship leg. -/
def initFromSnapshot (snap : ScenarioSnapshot) : CoreState :=
  { time := 0
    ownship := snap.ownship
    ownshipLegs := [{ startTime := 0, course := snap.ownship.course, speed := snap.ownship.speed }]
    contacts := snap.contacts
    trackers := []
    nextTrackerId := 0
    engagements := []
    tubes := snap.tubes
    groundTruth := []
    outcome := .IN_PROGRESS
    ownshipDestroyed := false
    config := snap.config }

/-- Modelled from the spec: `resetMission(scenarioSnapshot)` (§6): re-initialize
all components from the original scenario snapshot, discarding session state. -/
def resetMission (_st : CoreState) (snap : ScenarioSnapshot) : CoreState :=
  initFromSnapshot snap

/-- States reachable within one session: snapshot initialization followed by
any sequence of ticks (arbitrary queued commands, time steps, noise). -/
inductive Reachable : CoreState → Prop
  | init (snap : ScenarioSnapshot) : Reachable (initFromSnapshot snap)
  | step (st : CoreState) (q : List Cmd) (dt : Nat) (noise : Nat → Int) :
      Reachable st → Reachable (tick st q dt noise)

/-- `Reaches st st2`: st2 is a later state of the same session as st. -/
inductive Reaches : CoreState → CoreState → Prop
  | refl (st : CoreState) : Reaches st st
  | step (st st2 : CoreState) (q : List Cmd) (dt : Nat) (noise : Nat → Int) :
      Reaches st st2 → Reaches st (tick st2 q dt noise)

/-- The solver entry point for one tracker, as the tick uses it: a pure
function of the ownship leg history and that tracker's bearing history. -/
def recomputeSolution (st : CoreState) (tid : Nat) : SolverOutput :=
  match findTracker st tid with
  | some tr => tmaSolve st.ownshipLegs tr.history
  | none => .insufficientData

/-- Modelled from the spec: the UI store state relevant to the ground-truth
reveal capability (§6: WorldState snapshots are gated behind a "reveal truth"
debug capability).  Modelled from src/verify_expert_mode.py: the store keeps a
`godMode` flag, scenarios may be entered in expert mode, and the DEV button is
the visible control opening the ground-truth view. -/
structure UIStore where
  scenarioLoaded : Bool
  expertMode : Bool
  godMode : Bool
deriving DecidableEq

/-- Modelled from src/verify_expert_mode.py: entering a scenario; expert mode
starts with the reveal-truth flag off. -/
def enterScenario (expert : Bool) : UIStore :=
  { scenarioLoaded := true, expertMode := expert, godMode := false }

/-- Modelled from src/verify_expert_mode.py: the DEV button is rendered only
outside expert mode. -/
def devButtonRendered (s : UIStore) : Bool :=
  s.scenarioLoaded && !s.expertMode

/-- A keyboard event with modifier flags. -/
structure KeyEvent where
  ctrl : Bool
  shift : Bool
  key : Char
deriving DecidableEq

/-- Modelled from src/verify_expert_mode.py: the global key handler - the
chord Ctrl+Shift+D toggles the store's godMode flag, with no expert-mode
gate; every other key leaves the store unchanged. -/
def handleKey (s : UIStore) (e : KeyEvent) : UIStore :=
  if e.ctrl && e.shift && (e.key == 'D') then { s with godMode := !s.godMode } else s

/-- The ground-truth (reveal truth) view is shown exactly when godMode is
on. -/
def revealTruthVisible (s : UIStore) : Bool :=
  s.godMode

/-- The sources currently targeted by live trackers. -/
def trackerSources (st : CoreState) : List Nat :=
  st.trackers.map Tracker.sourceId

/-- The ids of the live trackers. -/
def trackerIds (st : CoreState) : List Nat :=
  st.trackers.map Tracker.id

/-- The tracker bookkeeping invariant: live trackers target pairwise distinct
sources, and every live id is below the monotone id counter (so a fresh id can
never collide with any id ever used). -/
def TrackInv (st : CoreState) : Prop :=
  (trackerSources st).Nodup ∧ ∀ t ∈ st.trackers, t.id < st.nextTrackerId

/-- Ids flow forward: moving to a later state of the same session, the id
counter never decreases, and every live tracker either was already live (same
id) or carries an id at or beyond the earlier counter. -/
def idProvenance (st st2 : CoreState) : Prop :=
  st.nextTrackerId ≤ st2.nextTrackerId ∧
    ∀ t2 ∈ st2.trackers, t2.id ∈ trackerIds st ∨ st.nextTrackerId ≤ t2.id

/-- Every engagement of the given tracker (if any) is still in `IDLE`. -/
def engIdle (st : CoreState) (tid : Nat) : Bool :=
  st.engagements.all (fun e => e.trackerId != tid || e.phase == .IDLE)

/-- The tracker's target exists and sits above the configured search
ceiling. -/
def targetAbove (st : CoreState) (tid : Nat) : Bool :=
  match targetOf st tid with
  | some c => aboveCeiling c st.config
  | none => false

/-- The AI-control flag of a contact, as read back from the state. -/
def flagOf (st : CoreState) (cid : Nat) : Option AIFlag :=
  (contactOf st cid).map Contact.aiFlag

/-- Every engagement of the given tracker (if any) has left `IDLE` for none of
the armed phases. -/
def engNotEngaged (st : CoreState) (tid : Nat) : Bool :=
  st.engagements.all (fun e => e.trackerId != tid ||
    (e.phase != .DETECTING && e.phase != .LOCKED && e.phase != .FIRED))

/-- A small concrete configuration used to exercise the model. -/
def sampleConfig : CoreConfig :=
  { searchCeiling := 50, lockDuration := 3, baffleHalfWidth := 30,
    detectRange := 10000, classifyThreshold := 5 }

def sampleOwnship : Ownship :=
  { x := 0, y := 0, course := 0, speed := 5, depth := 100 }

/-- A deep hostile contact (below the search ceiling, hence lockable). -/
def sampleContact : Contact :=
  { id := 1, x := 1000, y := 1000, course := 90, speed := 8, depth := 150,
    hostile := true, alive := true, aiFlag := .ACTIVE }

/-- A shallow contact, above the search ceiling (depth 20 < ceiling 50). -/
def shallowContact : Contact :=
  { id := 2, x := -2000, y := 500, course := 180, speed := 4, depth := 20,
    hostile := false, alive := true, aiFlag := .ACTIVE }

def sampleSnap : ScenarioSnapshot :=
  { ownship := sampleOwnship, contacts := [sampleContact, shallowContact],
    tubes := [.EMPTY, .LOADED], config := sampleConfig }

def sampleState : CoreState :=
  initFromSnapshot sampleSnap

/-- The sample session directly after designating a tracker on source 1. -/
def trackedState : CoreState :=
  (designate sampleState 1).1

/-- The sample session after designating a tracker on the shallow source 2. -/
def shallowTracked : CoreState :=
  (designate sampleState 2).1

/-- A silent noise stream for concrete runs. -/
def zeroNoise : Nat → Int :=
  fun _ => 0

/-- A concrete manual kinematic update used in witnesses. -/
def sampleUpdate : KinematicUpdate :=
  { course := some 270, speed := some 12, depth := none }

/-- The sample scenario with its hostile contact already destroyed. -/
def clearedSnap : ScenarioSnapshot :=
  { sampleSnap with contacts := [{ sampleContact with alive := false }, shallowContact] }

def clearedState : CoreState :=
  initFromSnapshot clearedSnap

end TheConn

namespace TheConn

lemma find?_map_pres {α : Type} (q : α → Bool) (f : α → α) (h : ∀ a, q (f a) = q a) :
    ∀ l : List α, (l.map f).find? q = (l.find? q).map f := by
  intro l
  induction l with
  | nil => rfl
  | cons a l ih =>
    simp only [List.map_cons, List.find?_cons, h a]
    cases hq : q a <;> simp [ih]

lemma map_id_of_mem {α : Type} (l : List α) (f : α → α) (h : ∀ a ∈ l, f a = a) :
    l.map f = l := by
  calc l.map f = l.map id := List.map_congr_left h
  _ = l := List.map_id l

lemma designate_succeeds (st : CoreState) (src : Nat)
    (hg : ¬ (st.trackers.any fun t => t.sourceId == src) = true) :
    (designate st src).2 = .ok st.nextTrackerId := by
  unfold designate
  rw [if_neg hg]

/-- C8: with zero or one bearing observations the solver reports
`InsufficientData` and, being a no-solution state, nothing is displayed to
callers. -/
theorem tma_insufficient_data (legs : List OwnshipLeg) (hist : List BearingObservation)
    (h : hist.length ≤ 1) :
    tmaSolve legs hist = .insufficientData ∧
      displayedSolution (tmaSolve legs hist) = none := by
  have hs : tmaSolve legs hist = .insufficientData := by
    unfold tmaSolve
    simp [h]
  exact ⟨hs, by rw [hs]; rfl⟩

theorem tma_insufficient_data_witness :
    ([({ timestamp := 0, bearing := 45, sourceId := 1 } : BearingObservation)].length ≤ 1) ∧
      tmaSolve [{ startTime := 0, course := 0, speed := 5 }]
          [{ timestamp := 0, bearing := 45, sourceId := 1 }] = .insufficientData ∧
      displayedSolution (tmaSolve [{ startTime := 0, course := 0, speed := 5 }]
          [{ timestamp := 0, bearing := 45, sourceId := 1 }]) = none :=
  ⟨by decide,
    tma_insufficient_data [{ startTime := 0, course := 0, speed := 5 }]
      [{ timestamp := 0, bearing := 45, sourceId := 1 }] (by decide)⟩

/-- C1 (counterexample): a bearing history of a single observation spans fewer
than two distinct ownship legs, yet the solver does not return a partial
solution with a null range and a non-empty ambiguity pair - it reports
`InsufficientData`, so the claim fails as stated on one-observation
histories. -/
theorem tma_single_obs_not_partial :
    distinctLegCount [{ startTime := 0, course := 0, speed := 5 }]
        [{ timestamp := 0, bearing := 45, sourceId := 1 }] < 2 ∧
      ¬ ∃ s, tmaSolve [{ startTime := 0, course := 0, speed := 5 }]
          [{ timestamp := 0, bearing := 45, sourceId := 1 }] = .solution s ∧
          s.range = none ∧ s.ambiguity ≠ [] := by
  constructor
  · decide
  · rintro ⟨s, hs, -, -⟩
    have : SolverOutput.insufficientData = SolverOutput.solution s := by
      rw [← hs]; decide
    exact SolverOutput.noConfusion this

/-- C1 (amended): for every bearing history of at least two observations
spanning fewer than two distinct ownship legs, the solver returns a partial
solution whose range is null together with a non-empty ambiguity pair (both
candidate directions/ranges reported); it never returns a deterministic
range in that case. -/
theorem tma_few_legs_partial (legs : List OwnshipLeg) (hist : List BearingObservation)
    (hlen : 2 ≤ hist.length) (hlegs : distinctLegCount legs hist < 2) :
    ∃ s, tmaSolve legs hist = .solution s ∧ s.range = none ∧ s.ambiguity ≠ [] := by
  have hnot : ¬ hist.length ≤ 1 := by omega
  simp only [tmaSolve, if_neg hnot, if_pos hlegs]
  exact ⟨_, rfl, rfl, by simp⟩

theorem tma_few_legs_partial_witness :
    (2 ≤ ([({ timestamp := 0, bearing := 45, sourceId := 1 } : BearingObservation),
           { timestamp := 10, bearing := 50, sourceId := 1 }].length)) ∧
      distinctLegCount [{ startTime := 0, course := 0, speed := 5 }]
        [{ timestamp := 0, bearing := 45, sourceId := 1 },
         { timestamp := 10, bearing := 50, sourceId := 1 }] < 2 ∧
      ∃ s, tmaSolve [{ startTime := 0, course := 0, speed := 5 }]
          [{ timestamp := 0, bearing := 45, sourceId := 1 },
           { timestamp := 10, bearing := 50, sourceId := 1 }] = .solution s ∧
          s.range = none ∧ s.ambiguity ≠ [] :=
  ⟨by decide, by decide,
    tma_few_legs_partial [{ startTime := 0, course := 0, speed := 5 }]
      [{ timestamp := 0, bearing := 45, sourceId := 1 },
       { timestamp := 10, bearing := 50, sourceId := 1 }] (by decide) (by decide)⟩

/-- C2: the solution the tick pipeline computes for a tracker is a pure
function of the ownship leg history and that tracker's bearing history alone:
two states that agree on those - however much they differ elsewhere, in
particular in the ground-truth linkage side table - yield identical solver
output; and rewriting the linkage table arbitrarily never changes the solver
output. -/
theorem solver_ground_truth_independent (st1 st2 : CoreState) (tid : Nat)
    (hlegs : st1.ownshipLegs = st2.ownshipLegs)
    (hhist : (findTracker st1 tid).map Tracker.history
      = (findTracker st2 tid).map Tracker.history) :
    recomputeSolution st1 tid = recomputeSolution st2 tid ∧
      ∀ gt : List (Nat × Nat),
        recomputeSolution { st1 with groundTruth := gt } tid = recomputeSolution st1 tid := by
  constructor
  · unfold recomputeSolution
    rw [hlegs]
    cases h1 : findTracker st1 tid with
    | none =>
      cases h2 : findTracker st2 tid with
      | none => rfl
      | some tr2 => rw [h1, h2] at hhist; exact Option.noConfusion hhist
    | some tr1 =>
      cases h2 : findTracker st2 tid with
      | none => rw [h1, h2] at hhist; exact Option.noConfusion hhist
      | some tr2 =>
        rw [h1, h2] at hhist
        have hh : tr1.history = tr2.history := Option.some.inj hhist
        show tmaSolve st2.ownshipLegs tr1.history = tmaSolve st2.ownshipLegs tr2.history
        rw [hh]
  · intro gt
    rfl

theorem solver_ground_truth_independent_witness :
    (let base : CoreState :=
      { time := 0
        ownship := { x := 0, y := 0, course := 0, speed := 5, depth := 100 }
        ownshipLegs := [{ startTime := 0, course := 0, speed := 5 }]
        contacts := []
        trackers := [{ id := 0, sourceId := 1, designatedAt := 0,
                       classification := .UNKNOWN, history := [], solution := .insufficientData }]
        nextTrackerId := 1
        engagements := []
        tubes := []
        groundTruth := [(0, 1)]
        outcome := .IN_PROGRESS
        ownshipDestroyed := false
        config := { searchCeiling := 50, lockDuration := 3, baffleHalfWidth := 30,
                    detectRange := 10000, classifyThreshold := 5 } };
    recomputeSolution base 0
      = recomputeSolution { base with groundTruth := [(0, 2)] } 0 ∧
      ∀ gt : List (Nat × Nat),
        recomputeSolution { base with groundTruth := gt } 0 = recomputeSolution base 0) := by
  exact solver_ground_truth_independent _ _ 0 rfl rfl

/-- C10: entering a scenario in expert mode hides the DEV button (the visible
reveal-truth control), yet the Ctrl+Shift+D chord still flips the store's
godMode flag from false to true, making the ground-truth view reachable with
no visible control. -/
theorem expert_mode_god_mode_reachable :
    devButtonRendered (enterScenario true) = false ∧
      (enterScenario true).godMode = false ∧
      revealTruthVisible (enterScenario true) = false ∧
      (handleKey (enterScenario true) { ctrl := true, shift := true, key := 'D' }).godMode = true ∧
      revealTruthVisible
        (handleKey (enterScenario true) { ctrl := true, shift := true, key := 'D' }) = true := by
  decide

lemma find?_key_update {α : Type} (key : α → Nat) (k : Nat) (g : α → α)
    (hid : ∀ a, key (g a) = key a) (l : List α) :
    (l.map (fun a => if key a == k then g a else a)).find? (fun a => key a == k)
      = (l.find? (fun a => key a == k)).map (fun a => if key a == k then g a else a) := by
  apply find?_map_pres
  intro a
  cases hqa : (key a == k) <;> simp [hqa, hid]

lemma contactOf_mapped (st st2 : CoreState) (f : Contact → Contact) (cid : Nat)
    (hc : st2.contacts = st.contacts.map f) (hid : ∀ c, (f c).id = c.id) :
    contactOf st2 cid = (contactOf st cid).map f := by
  unfold contactOf
  rw [hc]
  exact find?_map_pres _ f (fun a => by simp [hid]) st.contacts

lemma contactOf_congr (st st2 : CoreState) (cid : Nat) (h : st2.contacts = st.contacts) :
    contactOf st2 cid = contactOf st cid := by
  unfold contactOf
  rw [h]

lemma moveContact_fields (dt : Nat) (c : Contact) :
    (moveContact dt c).id = c.id ∧ (moveContact dt c).course = c.course ∧
      (moveContact dt c).speed = c.speed ∧ (moveContact dt c).aiFlag = c.aiFlag ∧
      (moveContact dt c).hostile = c.hostile ∧ (moveContact dt c).alive = c.alive := by
  unfold moveContact
  split <;> exact ⟨rfl, rfl, rfl, rfl, rfl, rfl⟩

lemma aiStep_fields (c : Contact) :
    (aiStep c).id = c.id ∧ (aiStep c).aiFlag = c.aiFlag ∧
      (aiStep c).hostile = c.hostile ∧ (aiStep c).alive = c.alive ∧
      (c.aiFlag = .OVERRIDDEN → aiStep c = c) := by
  unfold aiStep
  cases hf : c.aiFlag
  · exact ⟨rfl, hf, rfl, rfl, fun h => AIFlag.noConfusion h⟩
  · exact ⟨rfl, hf, rfl, rfl, fun _ => rfl⟩

lemma missionTick_contacts (st : CoreState) : (missionTick st).contacts = st.contacts := by
  unfold missionTick
  repeat' split
  all_goals rfl

lemma missionTick_trackers (st : CoreState) : (missionTick st).trackers = st.trackers := by
  unfold missionTick
  repeat' split
  all_goals rfl

lemma missionTick_engagements (st : CoreState) :
    (missionTick st).engagements = st.engagements := by
  unfold missionTick
  repeat' split
  all_goals rfl

lemma missionTick_next (st : CoreState) :
    (missionTick st).nextTrackerId = st.nextTrackerId := by
  unfold missionTick
  repeat' split
  all_goals rfl

lemma startLock_shape (st : CoreState) (tid : Nat) :
    (startLock st tid).1.contacts = st.contacts ∧
      (startLock st tid).1.trackers = st.trackers ∧
      (startLock st tid).1.outcome = st.outcome ∧
      (startLock st tid).1.nextTrackerId = st.nextTrackerId := by
  unfold startLock
  repeat' split
  all_goals exact ⟨rfl, rfl, rfl, rfl⟩

lemma abortLock_shape (st : CoreState) (tid : Nat) :
    (abortLock st tid).1.contacts = st.contacts ∧
      (abortLock st tid).1.trackers = st.trackers ∧
      (abortLock st tid).1.outcome = st.outcome ∧
      (abortLock st tid).1.nextTrackerId = st.nextTrackerId := by
  unfold abortLock
  repeat' split
  all_goals exact ⟨rfl, rfl, rfl, rfl⟩

lemma loadTube_shape (st : CoreState) (idx : Nat) :
    (loadTube st idx).1.contacts = st.contacts ∧
      (loadTube st idx).1.trackers = st.trackers ∧
      (loadTube st idx).1.outcome = st.outcome ∧
      (loadTube st idx).1.nextTrackerId = st.nextTrackerId ∧
      (loadTube st idx).1.engagements = st.engagements := by
  unfold loadTube
  repeat' split
  all_goals exact ⟨rfl, rfl, rfl, rfl, rfl⟩

lemma fireTracker_shape (st : CoreState) (tid : Nat) :
    (fireTracker st tid).1.contacts = st.contacts ∧
      (fireTracker st tid).1.trackers = st.trackers ∧
      (fireTracker st tid).1.outcome = st.outcome ∧
      (fireTracker st tid).1.nextTrackerId = st.nextTrackerId := by
  unfold fireTracker
  repeat' split
  all_goals exact ⟨rfl, rfl, rfl, rfl⟩

lemma designate_shape (st : CoreState) (src : Nat) :
    (designate st src).1.contacts = st.contacts ∧
      (designate st src).1.outcome = st.outcome ∧
      (designate st src).1.engagements = st.engagements := by
  unfold designate
  split <;> exact ⟨rfl, rfl, rfl⟩

/-- Contacts are only ever rewritten elementwise by a command, by a function
that preserves identity, side and liveness. -/
lemma applyCmd_contacts (st : CoreState) (c : Cmd) :
    ∃ f : Contact → Contact,
      (applyCmd st c).contacts = st.contacts.map f ∧
      (∀ x, (f x).id = x.id) ∧
      (∀ x, (f x).hostile = x.hostile ∧ (f x).alive = x.alive) := by
  have hid : ∀ (l : List Contact), l = l.map id := fun l => (List.map_id l).symm
  cases c with
  | designateCmd src =>
    exact ⟨id, by rw [← hid]; exact (designate_shape st src).1, fun x => rfl,
      fun x => ⟨rfl, rfl⟩⟩
  | dropCmd tid => exact ⟨id, by rw [← hid]; rfl, fun x => rfl, fun x => ⟨rfl, rfl⟩⟩
  | recordObsCmd tid obs => exact ⟨id, by rw [← hid]; rfl, fun x => rfl, fun x => ⟨rfl, rfl⟩⟩
  | manualUpdateCmd cid u =>
    refine ⟨fun x => if x.id == cid then { applyKinematics x u with aiFlag := .OVERRIDDEN }
      else x, rfl, ?_, ?_⟩
    · intro x
      by_cases hx : (x.id == cid) = true <;> simp [hx, applyKinematics]
    · intro x
      by_cases hx : (x.id == cid) = true <;> simp [hx, applyKinematics]
  | resumeAICmd cid =>
    refine ⟨fun x => if x.id == cid then { x with aiFlag := .ACTIVE } else x, rfl, ?_, ?_⟩
    · intro x
      by_cases hx : (x.id == cid) = true <;> simp [hx]
    · intro x
      by_cases hx : (x.id == cid) = true <;> simp [hx]
  | helmCmd course speed => exact ⟨id, by rw [← hid]; rfl, fun x => rfl, fun x => ⟨rfl, rfl⟩⟩
  | lockStartCmd tid =>
    exact ⟨id, by rw [← hid]; exact (startLock_shape st tid).1, fun x => rfl,
      fun x => ⟨rfl, rfl⟩⟩
  | lockAbortCmd tid =>
    exact ⟨id, by rw [← hid]; exact (abortLock_shape st tid).1, fun x => rfl,
      fun x => ⟨rfl, rfl⟩⟩
  | tubeLoadCmd idx =>
    exact ⟨id, by rw [← hid]; exact (loadTube_shape st idx).1, fun x => rfl,
      fun x => ⟨rfl, rfl⟩⟩
  | fireCmd tid =>
    exact ⟨id, by rw [← hid]; exact (fireTracker_shape st tid).1, fun x => rfl,
      fun x => ⟨rfl, rfl⟩⟩

lemma contactOf_isSome_applyCmd (st : CoreState) (c : Cmd) (cid : Nat)
    (h : (contactOf st cid).isSome = true) :
    (contactOf (applyCmd st c) cid).isSome = true := by
  obtain ⟨f, hshape, hidf, -⟩ := applyCmd_contacts st c
  rw [contactOf_mapped st (applyCmd st c) f cid hshape hidf]
  cases hc : contactOf st cid with
  | none => rw [hc] at h; exact absurd h (by simp)
  | some c0 => rfl

lemma contactOf_isSome_runCmds (q : List Cmd) :
    ∀ (st : CoreState) (cid : Nat), (contactOf st cid).isSome = true →
      (contactOf (runSteps st (q.map Step.command)) cid).isSome = true := by
  induction q with
  | nil => intro st cid h; exact h
  | cons c q ih =>
    intro st cid h
    exact ih (applyCmd st c) cid (contactOf_isSome_applyCmd st c cid h)

/-- A contact whose flag is `OVERRIDDEN` keeps its flag, course and speed
through any elementwise contact rewrite that fixes overridden contacts'
steering. -/
lemma override_kin_pres (st st2 : CoreState) (cid : Nat) (co sp : Int)
    (f : Contact → Contact)
    (hc : st2.contacts = st.contacts.map f)
    (hidf : ∀ x, (f x).id = x.id)
    (hkeep : ∀ x, x.aiFlag = .OVERRIDDEN →
      (f x).aiFlag = .OVERRIDDEN ∧ (f x).course = x.course ∧ (f x).speed = x.speed)
    (h : ∃ c2, contactOf st cid = some c2 ∧ c2.aiFlag = .OVERRIDDEN
      ∧ c2.course = co ∧ c2.speed = sp) :
    ∃ c2, contactOf st2 cid = some c2 ∧ c2.aiFlag = .OVERRIDDEN
      ∧ c2.course = co ∧ c2.speed = sp := by
  obtain ⟨c2, hfind, hov, hco, hsp⟩ := h
  obtain ⟨h1, h2, h3⟩ := hkeep c2 hov
  refine ⟨f c2, ?_, h1, by rw [h2, hco], by rw [h3, hsp]⟩
  rw [contactOf_mapped st st2 f cid hc hidf, hfind]
  rfl

lemma override_kin_pres_congr (st st2 : CoreState) (cid : Nat) (co sp : Int)
    (hc : st2.contacts = st.contacts)
    (h : ∃ c2, contactOf st cid = some c2 ∧ c2.aiFlag = .OVERRIDDEN
      ∧ c2.course = co ∧ c2.speed = sp) :
    ∃ c2, contactOf st2 cid = some c2 ∧ c2.aiFlag = .OVERRIDDEN
      ∧ c2.course = co ∧ c2.speed = sp := by
  rw [contactOf_congr st st2 cid hc]
  exact h

lemma flagOf_override_pres (st st2 : CoreState) (cid : Nat) (f : Contact → Contact)
    (hc : st2.contacts = st.contacts.map f)
    (hidf : ∀ x, (f x).id = x.id)
    (hfl : ∀ x, x.aiFlag = .OVERRIDDEN → (f x).aiFlag = .OVERRIDDEN)
    (h : flagOf st cid = some .OVERRIDDEN) :
    flagOf st2 cid = some .OVERRIDDEN := by
  unfold flagOf at *
  rw [contactOf_mapped st st2 f cid hc hidf]
  cases hfind : contactOf st cid with
  | none => rw [hfind] at h; exact absurd h (by simp)
  | some c0 =>
    rw [hfind] at h
    have hov : c0.aiFlag = .OVERRIDDEN := by simpa using h
    simpa using hfl c0 hov

lemma targetAbove_elim (st : CoreState) (tid : Nat) (h : targetAbove st tid = true) :
    ∃ tgt, targetOf st tid = some tgt ∧ aboveCeiling tgt st.config = true := by
  unfold targetAbove at h
  cases ht : targetOf st tid with
  | none => rw [ht] at h; exact Bool.noConfusion h
  | some tgt => rw [ht] at h; exact ⟨tgt, rfl, h⟩

lemma engStep_trackerId (st : CoreState) (e : EngagementState) :
    (engStep st e).trackerId = e.trackerId := by
  unfold engStep
  repeat' split
  all_goals rfl

lemma engStep_of_idle (st : CoreState) (e : EngagementState) (h : e.phase = .IDLE) :
    engStep st e = e := by
  unfold engStep
  rw [h]

lemma engIdle_elem (tid : Nat) (e : EngagementState)
    (he : (e.trackerId != tid || e.phase == .IDLE) = true) (heq : e.trackerId = tid) :
    e.phase = .IDLE := by
  rw [heq] at he
  simpa using he

lemma engIdle_of_eq (st st2 : CoreState) (tid : Nat)
    (h2 : st2.engagements = st.engagements) (h : engIdle st tid = true) :
    engIdle st2 tid = true := by
  unfold engIdle at *
  rw [h2]
  exact h

lemma engIdle_of_filter (st st2 : CoreState) (tid : Nat) (p : EngagementState → Bool)
    (h2 : st2.engagements = st.engagements.filter p) (h : engIdle st tid = true) :
    engIdle st2 tid = true := by
  unfold engIdle at *
  rw [h2]
  rw [List.all_eq_true] at h ⊢
  intro e he
  exact h e (List.mem_of_mem_filter he)

lemma engIdle_of_map (st st2 : CoreState) (tid : Nat)
    (f : EngagementState → EngagementState)
    (h2 : st2.engagements = st.engagements.map f)
    (hf : ∀ e, (e.trackerId != tid || e.phase == .IDLE) = true →
      ((f e).trackerId != tid || (f e).phase == .IDLE) = true)
    (h : engIdle st tid = true) : engIdle st2 tid = true := by
  unfold engIdle at *
  rw [h2, List.all_map]
  rw [List.all_eq_true] at h ⊢
  intro e he
  exact hf e (h e he)

/-- One step never arms an engagement of a tracker whose target sits above the
search ceiling: if every engagement of `tid` is idle and the target is above
the ceiling, the same holds after any single step. -/
lemma engIdle_step (st : CoreState) (tid : Nat) (s : Step)
    (hab : targetAbove st tid = true) (h : engIdle st tid = true) :
    engIdle (applyStep st s) tid = true := by
  cases s with
  | command c =>
    cases c with
    | designateCmd src => exact engIdle_of_eq st _ tid (designate_shape st src).2.2 h
    | dropCmd tid2 =>
      exact engIdle_of_filter st _ tid (fun e => e.trackerId != tid2) rfl h
    | recordObsCmd tid2 obs => exact engIdle_of_eq st _ tid rfl h
    | manualUpdateCmd cid u => exact engIdle_of_eq st _ tid rfl h
    | resumeAICmd cid => exact engIdle_of_eq st _ tid rfl h
    | helmCmd co sp => exact engIdle_of_eq st _ tid rfl h
    | lockStartCmd tid2 =>
      show engIdle (startLock st tid2).1 tid = true
      cases ht2 : targetOf st tid2 with
      | none =>
        simp only [startLock, ht2]
        exact h
      | some tgt2 =>
        by_cases hab2 : aboveCeiling tgt2 st.config = true
        · simp only [startLock, ht2, if_pos hab2]
          exact h
        · have htid2 : tid2 ≠ tid := by
            intro heq
            subst heq
            obtain ⟨tgt, ht, habv⟩ := targetAbove_elim st tid2 hab
            rw [ht] at ht2
            have heq2 : tgt = tgt2 := Option.some.inj ht2
            rw [heq2] at habv
            exact hab2 habv
          cases he2 : engagementOf st tid2 with
          | some e =>
            by_cases hph : e.phase = .IDLE
            · simp only [startLock, ht2, if_neg hab2, he2, if_pos hph]
              refine engIdle_of_map st _ tid _ rfl ?_ h
              intro e2 hp
              by_cases h2t : (e2.trackerId == tid2) = true
              · have h2tid : e2.trackerId ≠ tid := by
                  have he2t : e2.trackerId = tid2 := by simpa using h2t
                  rw [he2t]
                  exact htid2
                simp [h2t, h2tid]
              · simp only [h2t]
                simpa using hp
            · simp only [startLock, ht2, if_neg hab2, he2, if_neg hph]
              exact h
          | none =>
            simp only [startLock, ht2, if_neg hab2, he2]
            unfold engIdle at *
            rw [List.all_eq_true] at h ⊢
            intro e2 he2m
            have he2m2 : e2 ∈ st.engagements ++
                [{ trackerId := tid2, phase := .DETECTING,
                   lockTimer := st.config.lockDuration, tube := none }] := he2m
            rcases List.mem_append.mp he2m2 with hmem | hmem
            · exact h e2 hmem
            · rw [List.mem_singleton.mp hmem]
              simp [htid2]
    | lockAbortCmd tid2 =>
      show engIdle (abortLock st tid2).1 tid = true
      cases he2 : engagementOf st tid2 with
      | none =>
        simp only [abortLock, he2]
        exact h
      | some e =>
        simp only [abortLock, he2]
        exact engIdle_of_filter st _ tid (fun e => e.trackerId != tid2) rfl h
    | tubeLoadCmd idx => exact engIdle_of_eq st _ tid (loadTube_shape st idx).2.2.2.2 h
    | fireCmd tid2 =>
      show engIdle (fireTracker st tid2).1 tid = true
      cases he2 : engagementOf st tid2 with
      | none =>
        simp only [fireTracker, he2]
        exact h
      | some e =>
        by_cases hph : e.phase = .LOCKED
        · have he2f : st.engagements.find? (fun x => x.trackerId == tid2) = some e := he2
          have htid2 : tid2 ≠ tid := by
            intro heq
            subst heq
            have hmem : e ∈ st.engagements := List.mem_of_find?_eq_some he2f
            have hkey := List.find?_some he2f
            have hkey2 : e.trackerId = tid2 := by simpa using hkey
            have hidl : e.phase = .IDLE :=
              engIdle_elem tid2 e (List.all_eq_true.mp h e hmem) hkey2
            rw [hidl] at hph
            exact EngPhase.noConfusion hph
          cases hfl : firstLoaded st.tubes with
          | none =>
            simp only [fireTracker, he2, if_pos hph, hfl]
            exact h
          | some i =>
            simp only [fireTracker, he2, if_pos hph, hfl]
            refine engIdle_of_map st _ tid _ rfl ?_ h
            intro e2 hp
            by_cases h2t : (e2.trackerId == tid2) = true
            · have h2tid : e2.trackerId ≠ tid := by
                have he2t : e2.trackerId = tid2 := by simpa using h2t
                rw [he2t]
                exact htid2
              simp [h2t, h2tid]
            · simp only [h2t]
              simpa using hp
        · simp only [fireTracker, he2, if_neg hph]
          exact h
  | advance dt => exact engIdle_of_eq st _ tid rfl h
  | observeStage noise => exact engIdle_of_eq st _ tid rfl h
  | solveStage => exact engIdle_of_eq st _ tid rfl h
  | aiStage => exact engIdle_of_eq st _ tid rfl h
  | wcsStage =>
    refine engIdle_of_map st _ tid (engStep st) rfl ?_ h
    intro e hp
    by_cases het : e.trackerId = tid
    · have hidl : e.phase = .IDLE := engIdle_elem tid e hp het
      rw [engStep_of_idle st e hidl]
      exact hp
    · rw [engStep_trackerId st e] at *
      simp [het]
  | missionStage => exact engIdle_of_eq st _ tid (missionTick_engagements st) h

lemma engIdle_run (steps : List Step) : ∀ (st : CoreState) (tid : Nat),
    (∀ n, n ≤ steps.length → targetAbove (runSteps st (steps.take n)) tid = true) →
    engIdle st tid = true → engIdle (runSteps st steps) tid = true := by
  induction steps with
  | nil => intro st tid _ h; exact h
  | cons s rest ih =>
    intro st tid habove h
    have h0 : targetAbove st tid = true := habove 0 (Nat.zero_le _)
    have h1 : engIdle (applyStep st s) tid = true := engIdle_step st tid s h0 h
    exact ih (applyStep st s) tid
      (fun n hn => habove (n + 1) (Nat.succ_le_succ hn)) h1

lemma flagOf_congr (st st2 : CoreState) (cid : Nat) (h : st2.contacts = st.contacts) :
    flagOf st2 cid = flagOf st cid := by
  unfold flagOf
  rw [contactOf_congr st st2 cid h]

lemma manualUpdate_contactOf (st : CoreState) (cid : Nat) (u : KinematicUpdate) (c : Contact)
    (hc : contactOf st cid = some c) :
    contactOf (manualUpdate st cid u) cid
      = some { applyKinematics c u with aiFlag := .OVERRIDDEN } := by
  have hc2 : st.contacts.find? (fun x => x.id == cid) = some c := hc
  have hcid := List.find?_some hc2
  show (st.contacts.map (fun x => if x.id == cid then
      { applyKinematics x u with aiFlag := .OVERRIDDEN } else x)).find? (fun x => x.id == cid)
    = some { applyKinematics c u with aiFlag := .OVERRIDDEN }
  rw [find?_key_update Contact.id cid
    (fun a => { applyKinematics a u with aiFlag := .OVERRIDDEN }) (fun a => rfl) st.contacts,
    hc2]
  have hcid2 : c.id = cid := by simpa using hcid
  simp [hcid2]

lemma stages_override_pres (stB : CoreState) (dt : Nat) (noise : Nat → Int)
    (cid : Nat) (co sp : Int)
    (h : ∃ c2, contactOf stB cid = some c2 ∧ c2.aiFlag = .OVERRIDDEN
      ∧ c2.course = co ∧ c2.speed = sp) :
    ∃ c2, contactOf (missionTick (wcsTick (aiMotion (solveAll
        (observeAll (advanceWorld stB dt) noise))))) cid = some c2 ∧
      c2.aiFlag = .OVERRIDDEN ∧ c2.course = co ∧ c2.speed = sp := by
  have h1 := override_kin_pres stB (advanceWorld stB dt) cid co sp (moveContact dt) rfl
    (fun x => (moveContact_fields dt x).1)
    (fun x hx => ⟨by rw [(moveContact_fields dt x).2.2.2.1]; exact hx,
      (moveContact_fields dt x).2.1, (moveContact_fields dt x).2.2.1⟩) h
  have h2 := override_kin_pres_congr (advanceWorld stB dt)
    (observeAll (advanceWorld stB dt) noise) cid co sp rfl h1
  have h3 := override_kin_pres_congr (observeAll (advanceWorld stB dt) noise)
    (solveAll (observeAll (advanceWorld stB dt) noise)) cid co sp rfl h2
  have h4 := override_kin_pres (solveAll (observeAll (advanceWorld stB dt) noise))
    (aiMotion (solveAll (observeAll (advanceWorld stB dt) noise))) cid co sp aiStep rfl
    (fun x => (aiStep_fields x).1)
    (fun x hx => by rw [(aiStep_fields x).2.2.2.2 hx]; exact ⟨hx, rfl, rfl⟩) h3
  have h5 := override_kin_pres_congr _ (wcsTick (aiMotion (solveAll
    (observeAll (advanceWorld stB dt) noise)))) cid co sp rfl h4
  exact override_kin_pres_congr _ (missionTick (wcsTick (aiMotion (solveAll
    (observeAll (advanceWorld stB dt) noise))))) cid co sp (missionTick_contacts _) h5

/-- C3: (i) a manual kinematic update against a contact applies the update and
flips the AI flag to `OVERRIDDEN` in one atomic state change; (ii) over a whole
tick whose queue ends with the manual update, the contact reads back
`OVERRIDDEN` with exactly the commanded course and speed - the AI steering
stage of that same tick never touches it; (iii) an `OVERRIDDEN` flag survives
every step of the system other than an explicit resume of that contact. -/
theorem ai_override_atomic :
    (∀ (st : CoreState) (cid : Nat) (u : KinematicUpdate) (c : Contact),
      contactOf st cid = some c → c.aiFlag = .ACTIVE →
      contactOf (manualUpdate st cid u) cid
        = some { applyKinematics c u with aiFlag := .OVERRIDDEN }) ∧
    (∀ (st : CoreState) (q : List Cmd) (dt : Nat) (noise : Nat → Int) (cid : Nat) (co sp : Int),
      (contactOf st cid).isSome = true →
      ∃ c2, contactOf (tick st (q ++ [.manualUpdateCmd cid
          { course := some co, speed := some sp, depth := none }]) dt noise) cid = some c2 ∧
        c2.aiFlag = .OVERRIDDEN ∧ c2.course = co ∧ c2.speed = sp) ∧
    (∀ (st : CoreState) (cid : Nat) (s : Step),
      flagOf st cid = some .OVERRIDDEN →
      s ≠ Step.command (Cmd.resumeAICmd cid) →
      flagOf (applyStep st s) cid = some .OVERRIDDEN) := by
  refine ⟨fun st cid u c hc _ => manualUpdate_contactOf st cid u c hc, ?_, ?_⟩
  · intro st q dt noise cid co sp hsome
    have hsteps : tick st (q ++ [Cmd.manualUpdateCmd cid
        { course := some co, speed := some sp, depth := none }]) dt noise
        = missionTick (wcsTick (aiMotion (solveAll (observeAll (advanceWorld
            (manualUpdate (runSteps st (q.map Step.command)) cid
              { course := some co, speed := some sp, depth := none }) dt) noise)))) := by
      unfold tick runSteps
      rw [List.map_append, List.foldl_append, List.foldl_append]
      rfl
    rw [hsteps]
    apply stages_override_pres
    have h0 : (contactOf (runSteps st (q.map Step.command)) cid).isSome = true :=
      contactOf_isSome_runCmds q st cid hsome
    obtain ⟨c0, hc0⟩ : ∃ c0, contactOf (runSteps st (q.map Step.command)) cid = some c0 := by
      cases hx : contactOf (runSteps st (q.map Step.command)) cid with
      | none => rw [hx] at h0; exact absurd h0 (by simp)
      | some c0 => exact ⟨c0, rfl⟩
    exact ⟨{ applyKinematics c0
        { course := some co, speed := some sp, depth := none } with aiFlag := .OVERRIDDEN },
      manualUpdate_contactOf _ cid _ c0 hc0, rfl, rfl, rfl⟩
  · intro st cid s hov hne
    cases s with
    | command c =>
      cases c with
      | designateCmd src =>
        show flagOf (designate st src).1 cid = some .OVERRIDDEN
        rw [flagOf_congr st _ cid (designate_shape st src).1]
        exact hov
      | dropCmd tid =>
        show flagOf (dropTracker st tid) cid = some .OVERRIDDEN
        rw [flagOf_congr st (dropTracker st tid) cid rfl]
        exact hov
      | recordObsCmd tid obs =>
        show flagOf (recordObservation st tid obs) cid = some .OVERRIDDEN
        rw [flagOf_congr st (recordObservation st tid obs) cid rfl]
        exact hov
      | manualUpdateCmd cid2 u =>
        refine flagOf_override_pres st (manualUpdate st cid2 u) cid
          (fun x => if x.id == cid2 then { applyKinematics x u with aiFlag := .OVERRIDDEN }
            else x) rfl ?_ ?_ hov
        · intro x
          by_cases hx : (x.id == cid2) = true <;> simp [hx, applyKinematics]
        · intro x hx
          by_cases hxx : (x.id == cid2) = true <;> simp [hxx, hx]
      | resumeAICmd cid2 =>
        have hcc : cid2 ≠ cid := fun h => hne (by rw [h])
        unfold flagOf at hov ⊢
        cases hfind : contactOf st cid with
        | none => rw [hfind] at hov; exact absurd hov (by simp)
        | some c0 =>
          rw [hfind] at hov
          have hov0 : c0.aiFlag = .OVERRIDDEN := by simpa using hov
          have hkey : c0.id = cid := by simpa using List.find?_some hfind
          show (contactOf (resumeAI st cid2) cid).map Contact.aiFlag = some .OVERRIDDEN
          rw [contactOf_mapped st (resumeAI st cid2)
              (fun x => if x.id == cid2 then { x with aiFlag := .ACTIVE } else x) cid rfl
              (fun x => by by_cases hx : (x.id == cid2) = true <;> simp [hx]), hfind]
          have hne3 : cid ≠ cid2 := fun h => hcc h.symm
          simp [hkey, hne3, hov0]
      | helmCmd course speed =>
        show flagOf (helmOrder st course speed) cid = some .OVERRIDDEN
        rw [flagOf_congr st (helmOrder st course speed) cid rfl]
        exact hov
      | lockStartCmd tid =>
        show flagOf (startLock st tid).1 cid = some .OVERRIDDEN
        rw [flagOf_congr st _ cid (startLock_shape st tid).1]
        exact hov
      | lockAbortCmd tid =>
        show flagOf (abortLock st tid).1 cid = some .OVERRIDDEN
        rw [flagOf_congr st _ cid (abortLock_shape st tid).1]
        exact hov
      | tubeLoadCmd idx =>
        show flagOf (loadTube st idx).1 cid = some .OVERRIDDEN
        rw [flagOf_congr st _ cid (loadTube_shape st idx).1]
        exact hov
      | fireCmd tid =>
        show flagOf (fireTracker st tid).1 cid = some .OVERRIDDEN
        rw [flagOf_congr st _ cid (fireTracker_shape st tid).1]
        exact hov
    | advance dt =>
      exact flagOf_override_pres st (advanceWorld st dt) cid (moveContact dt) rfl
        (fun x => (moveContact_fields dt x).1)
        (fun x hx => by rw [(moveContact_fields dt x).2.2.2.1]; exact hx) hov
    | observeStage noise =>
      show flagOf (observeAll st noise) cid = some .OVERRIDDEN
      rw [flagOf_congr st (observeAll st noise) cid rfl]
      exact hov
    | solveStage =>
      show flagOf (solveAll st) cid = some .OVERRIDDEN
      rw [flagOf_congr st (solveAll st) cid rfl]
      exact hov
    | aiStage =>
      exact flagOf_override_pres st (aiMotion st) cid aiStep rfl
        (fun x => (aiStep_fields x).1)
        (fun x hx => by rw [(aiStep_fields x).2.1]; exact hx) hov
    | wcsStage =>
      show flagOf (wcsTick st) cid = some .OVERRIDDEN
      rw [flagOf_congr st (wcsTick st) cid rfl]
      exact hov
    | missionStage =>
      show flagOf (missionTick st) cid = some .OVERRIDDEN
      rw [flagOf_congr st _ cid (missionTick_contacts st)]
      exact hov

theorem ai_override_atomic_witness :
    contactOf (manualUpdate sampleState 1 sampleUpdate) 1
        = some { applyKinematics sampleContact sampleUpdate with aiFlag := .OVERRIDDEN } ∧
      (∃ c2, contactOf (tick sampleState ([] ++ [.manualUpdateCmd 1
          { course := some 270, speed := some 12, depth := none }]) 1 zeroNoise) 1 = some c2 ∧
        c2.aiFlag = .OVERRIDDEN ∧ c2.course = 270 ∧ c2.speed = 12) ∧
      flagOf (applyStep (manualUpdate sampleState 1 sampleUpdate) .aiStage) 1
        = some .OVERRIDDEN :=
  ⟨ai_override_atomic.1 sampleState 1 sampleUpdate sampleContact (by decide) (by decide),
    ai_override_atomic.2.1 sampleState [] 1 zeroNoise 1 270 12 (by decide),
    ai_override_atomic.2.2 (manualUpdate sampleState 1 sampleUpdate) 1 .aiStage (by decide)
      (fun h => Step.noConfusion h)⟩

lemma any_congr_mem {α : Type} (l : List α) (p q : α → Bool) (h : ∀ a ∈ l, p a = q a) :
    l.any p = l.any q := by
  induction l with
  | nil => rfl
  | cons a l ih =>
    simp only [List.any_cons]
    rw [h a (List.mem_cons_self a l), ih (fun x hx => h x (List.mem_cons_of_mem a hx))]

lemma alert_normal_iff (st : CoreState) :
    alertLevel st = .NORMAL ↔ (st.trackers.any trackerHostile) = false := by
  unfold alertLevel
  constructor
  · intro h
    by_cases hh : (st.trackers.any trackerHostile) = true
    · rw [if_pos hh] at h
      exfalso
      revert h
      split <;> intro h <;> exact AlertLevel.noConfusion h
    · simpa using hh
  · intro h
    rw [if_neg (by simp [h])]

lemma hostileAlive_congr (st st2 : CoreState) (h : st2.contacts = st.contacts) :
    hostileAlive st2 = hostileAlive st := by
  unfold hostileAlive
  rw [h]

lemma hostileAlive_map (st st2 : CoreState) (f : Contact → Contact)
    (hc : st2.contacts = st.contacts.map f)
    (hfa : ∀ x, (f x).hostile = x.hostile ∧ (f x).alive = x.alive) :
    hostileAlive st2 = hostileAlive st := by
  unfold hostileAlive
  rw [hc, List.any_map]
  exact any_congr_mem _ _ _ (fun a _ => by simp [(hfa a).1, (hfa a).2])

lemma cmd_mission_pres (st : CoreState) (c : Cmd) :
    (applyCmd st c).outcome = st.outcome ∧
    hostileAlive (applyCmd st c) = hostileAlive st ∧
    ((st.trackers.any trackerHostile) = false →
      ((applyCmd st c).trackers.any trackerHostile) = false) := by
  obtain ⟨f, hshape, -, hfa⟩ := applyCmd_contacts st c
  have hha : hostileAlive (applyCmd st c) = hostileAlive st :=
    hostileAlive_map st _ f hshape hfa
  refine ⟨?_, hha, ?_⟩
  · cases c with
    | designateCmd src => exact (designate_shape st src).2.1
    | dropCmd tid => rfl
    | recordObsCmd tid obs => rfl
    | manualUpdateCmd cid u => rfl
    | resumeAICmd cid => rfl
    | helmCmd a b => rfl
    | lockStartCmd tid => exact (startLock_shape st tid).2.2.1
    | lockAbortCmd tid => exact (abortLock_shape st tid).2.2.1
    | tubeLoadCmd idx => exact (loadTube_shape st idx).2.2.1
    | fireCmd tid => exact (fireTracker_shape st tid).2.2.1
  · intro hns
    cases c with
    | designateCmd src =>
      show ((designate st src).1.trackers.any trackerHostile) = false
      unfold designate
      split
      · exact hns
      · simp [List.any_append, hns, trackerHostile]
    | dropCmd tid =>
      show ((st.trackers.filter (fun t => t.id != tid)).any trackerHostile) = false
      rw [List.any_eq_false] at hns ⊢
      intro a ha
      exact hns a (List.mem_of_mem_filter ha)
    | recordObsCmd tid obs =>
      show ((st.trackers.map (fun t =>
          if t.id == tid then { t with history := t.history ++ [obs] } else t)).any
        trackerHostile) = false
      rw [List.any_map, List.any_eq_false]
      rw [List.any_eq_false] at hns
      intro a ha hcon
      have hth : trackerHostile (if (a.id == tid) = true then
          { a with history := a.history ++ [obs] } else a) = trackerHostile a := by
        by_cases h2 : (a.id == tid) = true <;> simp [h2, trackerHostile]
      have hcon2 : trackerHostile (if (a.id == tid) = true then
          { a with history := a.history ++ [obs] } else a) = true := hcon
      rw [hth] at hcon2
      exact absurd hcon2 (hns a ha)
    | manualUpdateCmd cid u => exact hns
    | resumeAICmd cid => exact hns
    | helmCmd a b => exact hns
    | lockStartCmd tid =>
      show ((startLock st tid).1.trackers.any trackerHostile) = false
      rw [(startLock_shape st tid).2.1]
      exact hns
    | lockAbortCmd tid =>
      show ((abortLock st tid).1.trackers.any trackerHostile) = false
      rw [(abortLock_shape st tid).2.1]
      exact hns
    | tubeLoadCmd idx =>
      show ((loadTube st idx).1.trackers.any trackerHostile) = false
      rw [(loadTube_shape st idx).2.1]
      exact hns
    | fireCmd tid =>
      show ((fireTracker st tid).1.trackers.any trackerHostile) = false
      rw [(fireTracker_shape st tid).2.1]
      exact hns

lemma run_cmds_mission_pres (q : List Cmd) : ∀ st : CoreState,
    ((runSteps st (q.map Step.command)).outcome = st.outcome) ∧
    (hostileAlive (runSteps st (q.map Step.command)) = hostileAlive st) ∧
    ((st.trackers.any trackerHostile) = false →
      ((runSteps st (q.map Step.command)).trackers.any trackerHostile) = false) := by
  induction q with
  | nil => intro st; exact ⟨rfl, rfl, fun h => h⟩
  | cons c q ih =>
    intro st
    obtain ⟨h1, h2, h3⟩ := cmd_mission_pres st c
    obtain ⟨g1, g2, g3⟩ := ih (applyCmd st c)
    have hstep : runSteps st ((c :: q).map Step.command)
        = runSteps (applyCmd st c) (q.map Step.command) := rfl
    exact ⟨by rw [hstep, g1, h1], by rw [hstep, g2, h2],
      fun h => by rw [hstep]; exact g3 (h3 h)⟩

lemma observeTracker_classification (st : CoreState) (noise : Nat → Int) (t : Tracker) :
    (observeTracker st noise t).classification = classifyStep st t := by
  unfold observeTracker
  repeat' split
  all_goals rfl

lemma classifyStep_not_sub (st : CoreState) (t : Tracker)
    (hna : hostileAlive st = false) (hts : trackerHostile t = false) :
    (classifyStep st t == Classification.SUB) = false := by
  unfold classifyStep
  split
  · cases hl : (st.groundTruth.lookup t.id).bind (fun eid => contactOf st eid) with
    | none => simpa [trackerHostile] using hts
    | some c =>
      have hmem : c ∈ st.contacts := by
        cases hlk : st.groundTruth.lookup t.id with
        | none => rw [hlk] at hl; exact Option.noConfusion hl
        | some eid =>
          rw [hlk] at hl
          have hfind : st.contacts.find? (fun x => x.id == eid) = some c := hl
          exact List.mem_of_find?_eq_some hfind
      have hba : (c.hostile && c.alive) = false := by
        unfold hostileAlive at hna
        rw [List.any_eq_false] at hna
        simpa using hna c hmem
      simp [hba]
  · simpa [trackerHostile] using hts

lemma observe_nosub (st : CoreState) (noise : Nat → Int)
    (hna : hostileAlive st = false)
    (hns : (st.trackers.any trackerHostile) = false) :
    ((observeAll st noise).trackers.any trackerHostile) = false := by
  show ((st.trackers.map (observeTracker st noise)).any trackerHostile) = false
  rw [List.any_map, List.any_eq_false]
  rw [List.any_eq_false] at hns
  intro t ht
  have hts : trackerHostile t = false := by simpa using hns t ht
  intro hcon
  have h2 : ((observeTracker st noise t).classification == Classification.SUB) = true := hcon
  rw [observeTracker_classification, classifyStep_not_sub st t hna hts] at h2
  exact Bool.noConfusion h2

lemma solve_nosub (st : CoreState)
    (hns : (st.trackers.any trackerHostile) = false) :
    ((solveAll st).trackers.any trackerHostile) = false := by
  show ((st.trackers.map (solveTracker st)).any trackerHostile) = false
  rw [List.any_map]
  exact (any_congr_mem st.trackers (trackerHostile ∘ solveTracker st) trackerHostile
    (fun a _ => rfl)).trans hns

lemma missionTick_terminal (st : CoreState)
    (h : st.outcome = .VICTORY ∨ st.outcome = .DEFEAT) :
    (missionTick st).outcome = st.outcome := by
  unfold missionTick
  rcases h with h | h <;> rw [h] <;> exact h

lemma missionTick_victory (st : CoreState) (h1 : st.outcome = .IN_PROGRESS)
    (h2 : hostileAlive st = false) (h3 : (st.trackers.any trackerHostile) = false) :
    (missionTick st).outcome = .VICTORY := by
  have hal : alertLevel st = .NORMAL := (alert_normal_iff st).mpr h3
  simp [missionTick, h1, h2, hal]

/-- C7: against a tracker whose target sits above the configured search
ceiling, `startLock` fails with `InvalidState` leaving the state unchanged,
and over any run of steps during which the target stays above the ceiling an
idle engagement never enters `DETECTING` - hence never `LOCKED` or `FIRED`. -/
theorem ceiling_never_detecting (st : CoreState) (tid : Nat) (steps : List Step)
    (hidle : engIdle st tid = true)
    (habove : ∀ n, n ≤ steps.length →
      targetAbove (runSteps st (steps.take n)) tid = true) :
    startLock st tid = (st, .error .InvalidState) ∧
    engIdle (runSteps st steps) tid = true ∧
    engNotEngaged (runSteps st steps) tid = true := by
  have h0 : targetAbove st tid = true := habove 0 (Nat.zero_le _)
  obtain ⟨tgt, ht, habv⟩ := targetAbove_elim st tid h0
  have hrun : engIdle (runSteps st steps) tid = true :=
    engIdle_run steps st tid habove hidle
  refine ⟨?_, hrun, ?_⟩
  · simp [startLock, ht, habv]
  · unfold engNotEngaged
    unfold engIdle at hrun
    rw [List.all_eq_true] at hrun ⊢
    intro e he
    have hp := hrun e he
    by_cases het : e.trackerId = tid
    · have hidl : e.phase = .IDLE := engIdle_elem tid e hp het
      simp [hidl]
    · simp [het]

theorem ceiling_never_detecting_witness :
    startLock shallowTracked 0 = (shallowTracked, .error .InvalidState) ∧
      engIdle (runSteps shallowTracked [Step.command (Cmd.lockStartCmd 0)]) 0 = true ∧
      engNotEngaged (runSteps shallowTracked [Step.command (Cmd.lockStartCmd 0)]) 0 = true :=
  ceiling_never_detecting shallowTracked 0 [Step.command (Cmd.lockStartCmd 0)]
    (by decide) (by decide)

lemma observeTracker_keys (st : CoreState) (noise : Nat → Int) (t : Tracker) :
    (observeTracker st noise t).id = t.id ∧ (observeTracker st noise t).sourceId = t.sourceId := by
  unfold observeTracker
  repeat' split
  all_goals exact ⟨rfl, rfl⟩

lemma idProvenance_refl (st : CoreState) : idProvenance st st :=
  ⟨Nat.le_refl _, fun _ ht2 => Or.inl (List.mem_map_of_mem Tracker.id ht2)⟩

lemma idProvenance_trans (st st2 st3 : CoreState)
    (h12 : idProvenance st st2) (h23 : idProvenance st2 st3) : idProvenance st st3 := by
  refine ⟨Nat.le_trans h12.1 h23.1, ?_⟩
  intro t3 ht3
  rcases h23.2 t3 ht3 with hin | hge
  · obtain ⟨t2, ht2, heq⟩ := List.mem_map.mp hin
    rcases h12.2 t2 ht2 with hin2 | hge2
    · rw [← heq]
      exact Or.inl hin2
    · right
      omega
  · exact Or.inr (Nat.le_trans h12.1 hge)

lemma idProvenance_congr (st st2 : CoreState) (hc : st2.trackers = st.trackers)
    (hn : st2.nextTrackerId = st.nextTrackerId) : idProvenance st st2 := by
  refine ⟨by rw [hn], ?_⟩
  intro t2 ht2
  rw [hc] at ht2
  exact Or.inl (List.mem_map_of_mem Tracker.id ht2)

lemma idProvenance_mapped (st st2 : CoreState) (f : Tracker → Tracker)
    (hc : st2.trackers = st.trackers.map f)
    (hn : st2.nextTrackerId = st.nextTrackerId) (hid : ∀ t, (f t).id = t.id) :
    idProvenance st st2 := by
  refine ⟨by rw [hn], ?_⟩
  intro t2 ht2
  rw [hc] at ht2
  obtain ⟨t0, ht0, rfl⟩ := List.mem_map.mp ht2
  left
  rw [hid t0]
  exact List.mem_map_of_mem Tracker.id ht0

lemma idProvenance_sub (st st2 : CoreState)
    (hsub : ∀ t2 ∈ st2.trackers, t2 ∈ st.trackers)
    (hn : st.nextTrackerId ≤ st2.nextTrackerId) : idProvenance st st2 :=
  ⟨hn, fun t2 ht2 => Or.inl (List.mem_map_of_mem Tracker.id (hsub t2 ht2))⟩

lemma idProvenance_cmd (st : CoreState) (c : Cmd) : idProvenance st (applyCmd st c) := by
  cases c with
  | designateCmd src =>
    show idProvenance st (designate st src).1
    unfold designate
    split
    · exact idProvenance_refl st
    · refine ⟨Nat.le_succ _, ?_⟩
      intro t2 ht2
      rcases List.mem_append.mp ht2 with hmem | hmem
      · exact Or.inl (List.mem_map_of_mem Tracker.id hmem)
      · rw [List.mem_singleton.mp hmem]
        exact Or.inr (Nat.le_refl _)
  | dropCmd tid =>
    exact idProvenance_sub st _ (fun t2 ht2 => List.mem_of_mem_filter ht2) (Nat.le_refl _)
  | recordObsCmd tid obs =>
    refine idProvenance_mapped st _ (fun t =>
      if t.id == tid then { t with history := t.history ++ [obs] } else t) rfl rfl ?_
    intro t
    by_cases h2 : (t.id == tid) = true <;> simp [h2]
  | manualUpdateCmd cid u => exact idProvenance_congr st _ rfl rfl
  | resumeAICmd cid => exact idProvenance_congr st _ rfl rfl
  | helmCmd a b => exact idProvenance_congr st _ rfl rfl
  | lockStartCmd tid =>
    exact idProvenance_congr st _ (startLock_shape st tid).2.1 (startLock_shape st tid).2.2.2
  | lockAbortCmd tid =>
    exact idProvenance_congr st _ (abortLock_shape st tid).2.1 (abortLock_shape st tid).2.2.2
  | tubeLoadCmd idx =>
    exact idProvenance_congr st _ (loadTube_shape st idx).2.1 (loadTube_shape st idx).2.2.2.1
  | fireCmd tid =>
    exact idProvenance_congr st _ (fireTracker_shape st tid).2.1 (fireTracker_shape st tid).2.2.2

lemma idProvenance_stage (st : CoreState) (s : Step) : idProvenance st (applyStep st s) := by
  cases s with
  | command c => exact idProvenance_cmd st c
  | advance dt => exact idProvenance_congr st _ rfl rfl
  | observeStage noise =>
    exact idProvenance_mapped st _ (observeTracker st noise) rfl rfl
      (fun t => (observeTracker_keys st noise t).1)
  | solveStage => exact idProvenance_mapped st _ (solveTracker st) rfl rfl (fun t => rfl)
  | aiStage => exact idProvenance_congr st _ rfl rfl
  | wcsStage => exact idProvenance_congr st _ rfl rfl
  | missionStage =>
    exact idProvenance_congr st _ (missionTick_trackers st) (missionTick_next st)

lemma idProvenance_run (steps : List Step) : ∀ st : CoreState,
    idProvenance st (runSteps st steps) := by
  induction steps with
  | nil => intro st; exact idProvenance_refl st
  | cons s rest ih =>
    intro st
    exact idProvenance_trans st (applyStep st s) (runSteps (applyStep st s) rest)
      (idProvenance_stage st s) (ih (applyStep st s))

lemma idProvenance_reaches (st st2 : CoreState) (h : Reaches st st2) :
    idProvenance st st2 := by
  induction h with
  | refl => exact idProvenance_refl st
  | step st2x q dt noise hr ih =>
    exact idProvenance_trans st st2x (tick st2x q dt noise) ih (idProvenance_run _ st2x)

lemma trackInv_congr (st st2 : CoreState) (hc : st2.trackers = st.trackers)
    (hn : st2.nextTrackerId = st.nextTrackerId) (h : TrackInv st) : TrackInv st2 := by
  obtain ⟨h1, h2⟩ := h
  constructor
  · unfold trackerSources at *
    rw [hc]
    exact h1
  · intro t ht
    rw [hc] at ht
    rw [hn]
    exact h2 t ht

lemma trackInv_mapped (st st2 : CoreState) (f : Tracker → Tracker)
    (hc : st2.trackers = st.trackers.map f)
    (hn : st2.nextTrackerId = st.nextTrackerId)
    (hf : ∀ t, (f t).sourceId = t.sourceId ∧ (f t).id = t.id)
    (h : TrackInv st) : TrackInv st2 := by
  obtain ⟨h1, h2⟩ := h
  constructor
  · unfold trackerSources at *
    rw [hc]
    have hmapeq : (st.trackers.map f).map Tracker.sourceId
        = st.trackers.map Tracker.sourceId := by
      rw [List.map_map]
      exact List.map_congr_left (fun t _ => (hf t).1)
    rw [hmapeq]
    exact h1
  · intro t ht
    rw [hc] at ht
    obtain ⟨t0, ht0, rfl⟩ := List.mem_map.mp ht
    rw [hn, (hf t0).2]
    exact h2 t0 ht0

lemma trackInv_cmd (st : CoreState) (c : Cmd) (h : TrackInv st) :
    TrackInv (applyCmd st c) := by
  cases c with
  | designateCmd src =>
    show TrackInv (designate st src).1
    unfold designate
    split
    · exact h
    · rename_i hguard
      obtain ⟨h1, h2⟩ := h
      have hnot : ∀ t ∈ st.trackers, t.sourceId ≠ src := by
        intro t ht heq
        exact hguard (List.any_eq_true.mpr ⟨t, ht, by simp [heq]⟩)
      constructor
      · unfold trackerSources at *
        show ((st.trackers ++ [_]).map Tracker.sourceId).Nodup
        rw [List.map_append]
        rw [List.nodup_append]
        refine ⟨h1, List.nodup_singleton _, ?_⟩
        intro a ha hb
        obtain ⟨t, ht, rfl⟩ := List.mem_map.mp ha
        have : t.sourceId = src := by simpa using hb
        exact hnot t ht this
      · intro t ht
        rcases List.mem_append.mp ht with hmem | hmem
        · have := h2 t hmem
          show t.id < st.nextTrackerId + 1
          omega
        · rw [List.mem_singleton.mp hmem]
          show st.nextTrackerId < st.nextTrackerId + 1
          omega
  | dropCmd tid =>
    obtain ⟨h1, h2⟩ := h
    constructor
    · unfold trackerSources at *
      show ((st.trackers.filter (fun t => t.id != tid)).map Tracker.sourceId).Nodup
      exact h1.sublist ((List.filter_sublist st.trackers).map Tracker.sourceId)
    · intro t ht
      exact h2 t (List.mem_of_mem_filter ht)
  | recordObsCmd tid obs =>
    refine trackInv_mapped st _ (fun t =>
      if t.id == tid then { t with history := t.history ++ [obs] } else t) rfl rfl ?_ h
    intro t
    by_cases h2 : (t.id == tid) = true <;> simp [h2]
  | manualUpdateCmd cid u => exact trackInv_congr st _ rfl rfl h
  | resumeAICmd cid => exact trackInv_congr st _ rfl rfl h
  | helmCmd a b => exact trackInv_congr st _ rfl rfl h
  | lockStartCmd tid =>
    exact trackInv_congr st _ (startLock_shape st tid).2.1 (startLock_shape st tid).2.2.2 h
  | lockAbortCmd tid =>
    exact trackInv_congr st _ (abortLock_shape st tid).2.1 (abortLock_shape st tid).2.2.2 h
  | tubeLoadCmd idx =>
    exact trackInv_congr st _ (loadTube_shape st idx).2.1 (loadTube_shape st idx).2.2.2.1 h
  | fireCmd tid =>
    exact trackInv_congr st _ (fireTracker_shape st tid).2.1 (fireTracker_shape st tid).2.2.2 h

lemma trackInv_stage (st : CoreState) (s : Step) (h : TrackInv st) :
    TrackInv (applyStep st s) := by
  cases s with
  | command c => exact trackInv_cmd st c h
  | advance dt => exact trackInv_congr st _ rfl rfl h
  | observeStage noise =>
    exact trackInv_mapped st _ (observeTracker st noise) rfl rfl
      (fun t => ⟨(observeTracker_keys st noise t).2, (observeTracker_keys st noise t).1⟩) h
  | solveStage =>
    exact trackInv_mapped st _ (solveTracker st) rfl rfl (fun t => ⟨rfl, rfl⟩) h
  | aiStage => exact trackInv_congr st _ rfl rfl h
  | wcsStage => exact trackInv_congr st _ rfl rfl h
  | missionStage =>
    exact trackInv_congr st _ (missionTick_trackers st) (missionTick_next st) h

lemma trackInv_run (steps : List Step) : ∀ st : CoreState,
    TrackInv st → TrackInv (runSteps st steps) := by
  induction steps with
  | nil => intro st h; exact h
  | cons s rest ih => intro st h; exact ih (applyStep st s) (trackInv_stage st s h)

lemma trackInv_reachable (st : CoreState) (h : Reachable st) : TrackInv st := by
  induction h with
  | init snap =>
    constructor
    · exact List.nodup_nil
    · intro t ht
      exact absurd ht (List.not_mem_nil t)
  | step stx q dt noise _ ih => exact trackInv_run _ stx ih

/-- C5: in every reachable session state, live trackers target pairwise
distinct sources (at most one live tracker per source entity), `designate`
fails with `AlreadyDesignated` whenever a live tracker already targets the
source, every live id sits below the monotone id counter, and in every later
state of the session a tracker whose id lies below the current counter must
already be live now - so a dropped tracker's id is never assigned again. -/
theorem tracker_unique_no_reuse (st : CoreState) (h : Reachable st) :
    (trackerSources st).Nodup ∧
    (∀ src, (st.trackers.any (fun t => t.sourceId == src)) = true →
      (designate st src).2 = .error .AlreadyDesignated) ∧
    (∀ t ∈ st.trackers, t.id < st.nextTrackerId) ∧
    (∀ st2, Reaches st st2 → ∀ t2 ∈ st2.trackers,
      t2.id < st.nextTrackerId → t2.id ∈ trackerIds st) := by
  obtain ⟨h1, h2⟩ := trackInv_reachable st h
  refine ⟨h1, ?_, h2, ?_⟩
  · intro src hsrc
    unfold designate
    rw [if_pos hsrc]
  · intro st2 hr t2 ht2 hlt
    obtain ⟨hmono, hprov⟩ := idProvenance_reaches st st2 hr
    rcases hprov t2 ht2 with hin | hge
    · exact hin
    · omega

theorem tracker_unique_no_reuse_witness :
    (trackerSources (tick sampleState [Cmd.designateCmd 1] 1 zeroNoise)).Nodup ∧
      (designate (tick sampleState [Cmd.designateCmd 1] 1 zeroNoise) 1).2
        = .error .AlreadyDesignated :=
  ⟨(tracker_unique_no_reuse (tick sampleState [Cmd.designateCmd 1] 1 zeroNoise)
      (Reachable.step sampleState [Cmd.designateCmd 1] 1 zeroNoise
        (Reachable.init sampleSnap))).1,
    (tracker_unique_no_reuse (tick sampleState [Cmd.designateCmd 1] 1 zeroNoise)
      (Reachable.step sampleState [Cmd.designateCmd 1] 1 zeroNoise
        (Reachable.init sampleSnap))).2.1 1 (by decide)⟩

/-- C4: when no hostile-classified entity is alive and the alert level is
`NORMAL`, the very next tick drives the outcome to `VICTORY` (unless the
mission is already lost); a terminal outcome (`VICTORY` or `DEFEAT`) is stable
under every further tick no matter which commands or world changes it carries;
and `resetMission` re-initializes everything from the scenario snapshot alone,
independent of the accumulated session state. -/
theorem mission_victory_terminal (st : CoreState) (snap : ScenarioSnapshot)
    (q : List Cmd) (dt : Nat) (noise : Nat → Int) :
    (st.outcome ≠ .DEFEAT → hostileAlive st = false → alertLevel st = .NORMAL →
      (tick st q dt noise).outcome = .VICTORY) ∧
    ((st.outcome = .VICTORY ∨ st.outcome = .DEFEAT) →
      (tick st q dt noise).outcome = st.outcome) ∧
    (∀ st2 : CoreState, resetMission st snap = resetMission st2 snap) ∧
    (resetMission st snap).outcome = .IN_PROGRESS ∧
    (resetMission st snap).trackers = [] ∧
    (resetMission st snap).engagements = [] := by
  have hsteps : tick st q dt noise
      = missionTick (wcsTick (aiMotion (solveAll (observeAll
          (advanceWorld (runSteps st (q.map Step.command)) dt) noise)))) := by
    unfold tick runSteps
    rw [List.foldl_append]
    rfl
  obtain ⟨hq1, hq2, hq3⟩ := run_cmds_mission_pres q st
  refine ⟨?_, ?_, fun st2 => rfl, rfl, rfl, rfl⟩
  · intro hnd hha hal
    rw [hsteps]
    have h3 := (alert_normal_iff st).mp hal
    have hhaA : hostileAlive (runSteps st (q.map Step.command)) = false := by
      rw [hq2]; exact hha
    have hnsA := hq3 h3
    have hha1 : hostileAlive (advanceWorld (runSteps st (q.map Step.command)) dt) = false := by
      rw [hostileAlive_map (runSteps st (q.map Step.command))
        (advanceWorld (runSteps st (q.map Step.command)) dt) (moveContact dt) rfl
        (fun x => ⟨(moveContact_fields dt x).2.2.2.2.1, (moveContact_fields dt x).2.2.2.2.2⟩)]
      exact hhaA
    have hns1 : ((advanceWorld (runSteps st (q.map Step.command)) dt).trackers.any
        trackerHostile) = false := hnsA
    have hns2 := observe_nosub (advanceWorld (runSteps st (q.map Step.command)) dt)
      noise hha1 hns1
    have hha2 : hostileAlive (observeAll (advanceWorld
        (runSteps st (q.map Step.command)) dt) noise) = false := by
      rw [hostileAlive_congr (advanceWorld (runSteps st (q.map Step.command)) dt)
        (observeAll (advanceWorld (runSteps st (q.map Step.command)) dt) noise) rfl]
      exact hha1
    have hns3 := solve_nosub (observeAll (advanceWorld
      (runSteps st (q.map Step.command)) dt) noise) hns2
    have hha3 : hostileAlive (solveAll (observeAll (advanceWorld
        (runSteps st (q.map Step.command)) dt) noise)) = false := hha2
    have hha4 : hostileAlive (aiMotion (solveAll (observeAll (advanceWorld
        (runSteps st (q.map Step.command)) dt) noise))) = false := by
      rw [hostileAlive_map (solveAll (observeAll (advanceWorld
          (runSteps st (q.map Step.command)) dt) noise))
        (aiMotion (solveAll (observeAll (advanceWorld
          (runSteps st (q.map Step.command)) dt) noise))) aiStep rfl
        (fun x => ⟨(aiStep_fields x).2.2.1, (aiStep_fields x).2.2.2.1⟩)]
      exact hha3
    have hns4 : ((aiMotion (solveAll (observeAll (advanceWorld
        (runSteps st (q.map Step.command)) dt) noise))).trackers.any
        trackerHostile) = false := hns3
    have hha5 : hostileAlive (wcsTick (aiMotion (solveAll (observeAll (advanceWorld
        (runSteps st (q.map Step.command)) dt) noise))))= false := hha4
    have hns5 : ((wcsTick (aiMotion (solveAll (observeAll (advanceWorld
        (runSteps st (q.map Step.command)) dt) noise)))).trackers.any
        trackerHostile) = false := hns4
    have hout5 : (wcsTick (aiMotion (solveAll (observeAll (advanceWorld
        (runSteps st (q.map Step.command)) dt) noise)))).outcome = st.outcome := hq1
    cases ho : st.outcome with
    | IN_PROGRESS =>
      exact missionTick_victory _ (by rw [hout5]; exact ho) hha5 hns5
    | VICTORY =>
      rw [missionTick_terminal _ (Or.inl (by rw [hout5]; exact ho)), hout5]
      exact ho
    | DEFEAT => exact absurd ho hnd
  · intro hterm
    rw [hsteps]
    have hout5 : (wcsTick (aiMotion (solveAll (observeAll (advanceWorld
        (runSteps st (q.map Step.command)) dt) noise)))).outcome = st.outcome := hq1
    rw [missionTick_terminal _ (by rw [hout5]; exact hterm), hout5]

theorem mission_victory_terminal_witness :
    (tick clearedState [] 1 zeroNoise).outcome = .VICTORY ∧
      (tick { clearedState with outcome := Outcome.VICTORY } [] 1 zeroNoise).outcome
        = ({ clearedState with outcome := Outcome.VICTORY } : CoreState).outcome ∧
      (resetMission clearedState sampleSnap).outcome = .IN_PROGRESS ∧
      (resetMission clearedState sampleSnap).trackers = [] :=
  ⟨(mission_victory_terminal clearedState sampleSnap [] 1 zeroNoise).1
      (by decide) (by decide) (by decide),
    (mission_victory_terminal { clearedState with outcome := Outcome.VICTORY }
      sampleSnap [] 1 zeroNoise).2.1 (Or.inl rfl),
    (mission_victory_terminal clearedState sampleSnap [] 1 zeroNoise).2.2.2.1,
    (mission_victory_terminal clearedState sampleSnap [] 1 zeroNoise).2.2.2.2.1⟩

/-- C9: commands referencing ids that no longer exist are benign no-ops:
`recordObservation` on a dead tracker id silently drops the observation with
no state change and no error; every other `NotFound`-class command likewise
leaves the state untouched, reporting at most a non-fatal `NotFound`. -/
theorem notfound_commands_benign (st : CoreState) :
    (∀ tid obs, tid ∉ trackerIds st → recordObservation st tid obs = st) ∧
    (∀ tid, tid ∉ trackerIds st →
      (∀ e ∈ st.engagements, e.trackerId ≠ tid) → dropTracker st tid = st) ∧
    (∀ tid, findTracker st tid = none → startLock st tid = (st, .error .NotFound)) ∧
    (∀ tid, engagementOf st tid = none → abortLock st tid = (st, .error .NotFound)) ∧
    (∀ tid, engagementOf st tid = none → fireTracker st tid = (st, .error .NotFound)) ∧
    (∀ cid, cid ∉ st.contacts.map Contact.id → resumeAI st cid = st) ∧
    (∀ cid u, cid ∉ st.contacts.map Contact.id → manualUpdate st cid u = st) ∧
    (∀ idx, st.tubes.get? idx = none → loadTube st idx = (st, .error .NotFound)) := by
  refine ⟨?_, ?_, ?_, ?_, ?_, ?_, ?_, ?_⟩
  · intro tid obs h
    unfold recordObservation
    rw [map_id_of_mem]
    intro t ht
    have hne : t.id ≠ tid := fun he => h (he ▸ List.mem_map_of_mem Tracker.id ht)
    simp [hne]
  · intro tid h he
    unfold dropTracker
    rw [List.filter_eq_self.mpr, List.filter_eq_self.mpr]
    · intro e hee
      simpa using he e hee
    · intro t ht
      have hne : t.id ≠ tid := fun heq => h (heq ▸ List.mem_map_of_mem Tracker.id ht)
      simpa using hne
  · intro tid h
    have ht : targetOf st tid = none := by unfold targetOf; rw [h]; rfl
    unfold startLock
    rw [ht]
  · intro tid h
    unfold abortLock
    rw [h]
  · intro tid h
    unfold fireTracker
    rw [h]
  · intro cid h
    unfold resumeAI
    rw [map_id_of_mem]
    intro c hc
    have hne : c.id ≠ cid := fun he => h (he ▸ List.mem_map_of_mem Contact.id hc)
    simp [hne]
  · intro cid u h
    unfold manualUpdate
    rw [map_id_of_mem]
    intro c hc
    have hne : c.id ≠ cid := fun he => h (he ▸ List.mem_map_of_mem Contact.id hc)
    simp [hne]
  · intro idx h
    unfold loadTube
    rw [h]

theorem notfound_commands_benign_witness :
    recordObservation trackedState 7 { timestamp := 0, bearing := 10, sourceId := 1 }
        = trackedState ∧
      dropTracker trackedState 7 = trackedState ∧
      startLock trackedState 7 = (trackedState, .error .NotFound) ∧
      abortLock trackedState 7 = (trackedState, .error .NotFound) ∧
      fireTracker trackedState 7 = (trackedState, .error .NotFound) ∧
      resumeAI trackedState 9 = trackedState ∧
      manualUpdate trackedState 9 { course := some 10, speed := none, depth := none }
        = trackedState ∧
      loadTube trackedState 5 = (trackedState, .error .NotFound) :=
  ⟨(notfound_commands_benign trackedState).1 7 _ (by decide),
    (notfound_commands_benign trackedState).2.1 7 (by decide) (by decide),
    (notfound_commands_benign trackedState).2.2.1 7 (by decide),
    (notfound_commands_benign trackedState).2.2.2.1 7 (by decide),
    (notfound_commands_benign trackedState).2.2.2.2.1 7 (by decide),
    (notfound_commands_benign trackedState).2.2.2.2.2.1 9 (by decide),
    (notfound_commands_benign trackedState).2.2.2.2.2.2.1 9 _ (by decide),
    (notfound_commands_benign trackedState).2.2.2.2.2.2.2 5 (by decide)⟩

/-- C6: `drop` destroys the tracker and its dependent engagement state and is
idempotent; designating a source and immediately dropping the new tracker
restores the tracker set exactly (no residual bearing history), leaves no
engagement for the dropped id, and a subsequent designate on the same source
succeeds. -/
theorem drop_cleanup (st : CoreState) (src : Nat)
    (hfresh : ∀ t ∈ st.trackers, t.id < st.nextTrackerId) :
    (∀ st2 tid, dropTracker (dropTracker st2 tid) tid = dropTracker st2 tid) ∧
    (∀ st2 tid, findTracker (dropTracker st2 tid) tid = none ∧
      engagementOf (dropTracker st2 tid) tid = none) ∧
    (∀ tid, (designate st src).2 = .ok tid →
      (dropTracker (designate st src).1 tid).trackers = st.trackers ∧
      (dropTracker (designate st src).1 tid).engagements
        = st.engagements.filter (fun e => e.trackerId != tid) ∧
      engagementOf (dropTracker (designate st src).1 tid) tid = none ∧
      ∃ tid2, (designate (dropTracker (designate st src).1 tid) src).2 = .ok tid2) := by
  have hdead : ∀ (st2 : CoreState) (tid : Nat),
      findTracker (dropTracker st2 tid) tid = none ∧
        engagementOf (dropTracker st2 tid) tid = none := by
    intro st2 tid
    constructor
    · apply List.find?_eq_none.mpr
      intro t ht
      have := (List.mem_filter.mp ht).2
      simpa using this
    · apply List.find?_eq_none.mpr
      intro e he
      have := (List.mem_filter.mp he).2
      simpa using this
  refine ⟨?_, hdead, ?_⟩
  · intro st2 tid
    unfold dropTracker
    simp [List.filter_filter]
  · intro tid hok
    by_cases hg : st.trackers.any (fun t => t.sourceId == src)
    · exfalso
      unfold designate at hok
      rw [if_pos hg] at hok
      exact Except.noConfusion hok
    · have hdes : designate st src
          = ({ st with
                trackers := st.trackers ++
                  [{ id := st.nextTrackerId, sourceId := src, designatedAt := st.time,
                     classification := .UNKNOWN, history := [], solution := .insufficientData }]
                nextTrackerId := st.nextTrackerId + 1
                groundTruth := st.groundTruth ++ [(st.nextTrackerId, src)] },
             .ok st.nextTrackerId) := by
        unfold designate
        rw [if_neg hg]
      have htid : tid = st.nextTrackerId := by
        rw [hdes] at hok
        exact (Except.ok.inj hok).symm
      subst htid
      have htr : (dropTracker (designate st src).1 st.nextTrackerId).trackers
          = st.trackers := by
        rw [hdes]
        unfold dropTracker
        simp only [List.filter_append]
        have h1 : st.trackers.filter (fun t => t.id != st.nextTrackerId) = st.trackers := by
          apply List.filter_eq_self.mpr
          intro t ht
          have : t.id ≠ st.nextTrackerId := Nat.ne_of_lt (hfresh t ht)
          simpa using this

        rw [h1]
        simp
      have heng : (dropTracker (designate st src).1 st.nextTrackerId).engagements
          = st.engagements.filter (fun e => e.trackerId != st.nextTrackerId) := by
        rw [hdes]
        rfl
      have hg2 : ¬ ((dropTracker (designate st src).1 st.nextTrackerId).trackers.any
          fun t => t.sourceId == src) = true := by
        rw [htr]
        exact hg
      exact ⟨htr, heng, (hdead _ _).2, _, designate_succeeds _ src hg2⟩

theorem drop_cleanup_witness :
    dropTracker (dropTracker trackedState 0) 0 = dropTracker trackedState 0 ∧
      findTracker (dropTracker trackedState 0) 0 = none ∧
      engagementOf (dropTracker trackedState 0) 0 = none ∧
      (dropTracker (designate sampleState 1).1 0).trackers = sampleState.trackers ∧
      ∃ tid2, (designate (dropTracker (designate sampleState 1).1 0) 1).2 = .ok tid2 :=
  ⟨(drop_cleanup sampleState 1 (by decide)).1 trackedState 0,
    ((drop_cleanup sampleState 1 (by decide)).2.1 trackedState 0).1,
    ((drop_cleanup sampleState 1 (by decide)).2.1 trackedState 0).2,
    ((drop_cleanup sampleState 1 (by decide)).2.2 0 (by rfl)).1,
    ((drop_cleanup sampleState 1 (by decide)).2.2 0 (by rfl)).2.2.2⟩

end TheConn
